import Mathlib

/-
Verification of the watcher component of the operator repository
(src/watcher/watcher.go against spec.md).

The Go code is embedded shallowly:

* Go maps with string keys become association lists (`List (String × _)`)
  with first-match lookup and in-place insert-or-update (`aupsert`), which
  mirrors a Go map write.
* The three correlation structures of the `WatchHandler` (the image-hash
  index `iwMap`, `wlidsToContainerToImageIDMap` and `hashedInstanceIDs`)
  become the fields of `StoreState`.
* External collaborators (the cluster API point reads, the recursive
  owner-chain walk, instance-id generation) are deterministic for a fixed
  cluster, so their results are carried as fields of the event / listing
  records (`PodEvent.podStillExists`, `PodEvent.parent`, `PodEvent.instIDs`,
  `ListedPod.parent`, `ListedPod.instIDs`).
* Channel sends become lists of produced values in the step results.

Helper files of the repository that are not present under src (the
imageHashWLIDMap file, the image extraction helpers, the scan-command
constructor) are modelled from the spec; each such definition carries a
doc comment starting with "Modelled from the spec:".
-/

set_option autoImplicit false

namespace Operator

/-! ## Association-list kit (embedding of Go maps with string keys) -/

/-- First-match lookup in an association list; embeds a Go map read. -/
def alookup {α : Type} : List (String × α) → String → Option α
  | [], _ => none
  | (k, v) :: t, q => if k = q then some v else alookup t q

/-- Insert-or-update in an association list; embeds a Go map write.
If the key is present its first occurrence is replaced in place,
otherwise the new entry is appended. -/
def aupsert {α : Type} : List (String × α) → String → (Option α → α) → List (String × α)
  | [], q, f => [(q, f none)]
  | (k, v) :: t, q, f => if k = q then (k, f (some v)) :: t else (k, v) :: aupsert t q f

/-- Keys of an association list. -/
def akeys {α : Type} : List (String × α) → List String
  | [] => []
  | (k, _) :: t => k :: akeys t

theorem alookup_aupsert {α : Type} (l : List (String × α)) (q : String) (f : Option α → α)
    (r : String) :
    alookup (aupsert l q f) r = if q = r then some (f (alookup l q)) else alookup l r := by
  induction l with
  | nil =>
    by_cases h : q = r <;> simp [aupsert, alookup, h]
  | cons p t ih =>
    obtain ⟨k, v⟩ := p
    by_cases hk : k = q
    · subst hk
      rw [show aupsert ((k, v) :: t) k f = (k, f (some v)) :: t by simp [aupsert]]
      by_cases hr : k = r <;> simp [alookup, hr]
    · rw [show aupsert ((k, v) :: t) q f = (k, v) :: aupsert t q f by simp [aupsert, hk]]
      by_cases hr : k = r
      · subst hr
        have hq : ¬ (q = k) := fun h => hk h.symm
        simp [alookup, hq]
      · simp [alookup, hr, hk, ih]

theorem akeys_aupsert_subset {α : Type} (l : List (String × α)) (q : String) (f : Option α → α) :
    ∀ r, r ∈ akeys (aupsert l q f) → r = q ∨ r ∈ akeys l := by
  induction l with
  | nil => intro r hr; simp [aupsert, akeys] at hr; exact Or.inl hr
  | cons p t ih =>
    obtain ⟨k, v⟩ := p
    intro r hr
    by_cases hk : k = q
    · subst hk
      rw [show aupsert ((k, v) :: t) k f = (k, f (some v)) :: t by simp [aupsert]] at hr
      simp only [akeys, List.mem_cons] at hr ⊢
      rcases hr with h | h
      · exact Or.inl h
      · exact Or.inr (Or.inr h)
    · rw [show aupsert ((k, v) :: t) q f = (k, v) :: aupsert t q f by simp [aupsert, hk]] at hr
      simp only [akeys, List.mem_cons] at hr ⊢
      rcases hr with h | h
      · exact Or.inr (Or.inl h)
      · rcases ih r h with h' | h'
        · exact Or.inl h'
        · exact Or.inr (Or.inr h')

theorem nodup_akeys_aupsert {α : Type} (l : List (String × α)) (q : String) (f : Option α → α)
    (h : (akeys l).Nodup) : (akeys (aupsert l q f)).Nodup := by
  induction l with
  | nil => simp [aupsert, akeys]
  | cons p t ih =>
    obtain ⟨k, v⟩ := p
    simp only [akeys, List.nodup_cons] at h
    by_cases hk : k = q
    · subst hk
      rw [show aupsert ((k, v) :: t) k f = (k, f (some v)) :: t by simp [aupsert]]
      simp only [akeys, List.nodup_cons]
      exact ⟨h.1, h.2⟩
    · rw [show aupsert ((k, v) :: t) q f = (k, v) :: aupsert t q f by simp [aupsert, hk]]
      simp only [akeys, List.nodup_cons]
      refine ⟨?_, ih h.2⟩
      intro hmem
      rcases akeys_aupsert_subset t q f k hmem with h'' | h''
      · exact hk h''
      · exact h.1 h''

theorem mem_aupsert_self {α : Type} (l : List (String × α)) (q : String) (v : α) :
    (q, v) ∈ aupsert l q (fun _ => v) := by
  induction l with
  | nil => simp [aupsert]
  | cons p t ih =>
    obtain ⟨k, w⟩ := p
    by_cases hk : k = q
    · subst hk
      rw [show aupsert ((k, w) :: t) k (fun _ => v) = (k, v) :: t by simp [aupsert]]
      exact List.mem_cons_self _ _
    · rw [show aupsert ((k, w) :: t) q (fun _ => v) = (k, w) :: aupsert t q (fun _ => v) by
        simp [aupsert, hk]]
      exact List.mem_cons_of_mem _ ih

theorem mem_aupsert_of_ne {α : Type} (l : List (String × α)) (q : String) (f : Option α → α)
    (c : String) (i : α) (hm : (c, i) ∈ l) (hne : c ≠ q) : (c, i) ∈ aupsert l q f := by
  induction l with
  | nil => simp at hm
  | cons p t ih =>
    obtain ⟨k, w⟩ := p
    by_cases hk : k = q
    · subst hk
      rw [show aupsert ((k, w) :: t) k f = (k, f (some w)) :: t by simp [aupsert]]
      rcases List.mem_cons.mp hm with h | h
      · have h1 : c = k := by simpa using congrArg Prod.fst h
        exact absurd h1 hne
      · exact List.mem_cons_of_mem _ h
    · rw [show aupsert ((k, w) :: t) q f = (k, w) :: aupsert t q f by simp [aupsert, hk]]
      rcases List.mem_cons.mp hm with h | h
      · exact h ▸ List.mem_cons_self _ _
      · exact List.mem_cons_of_mem _ (ih h)

theorem mem_aupsert_elim {α : Type} (l : List (String × α)) (q : String) (v : α)
    (c : String) (i : α) (hm : (c, i) ∈ aupsert l q (fun _ => v)) :
    (c = q ∧ i = v) ∨ (c, i) ∈ l := by
  induction l with
  | nil => simp [aupsert] at hm; exact Or.inl hm
  | cons p t ih =>
    obtain ⟨k, w⟩ := p
    by_cases hk : k = q
    · subst hk
      rw [show aupsert ((k, w) :: t) k (fun _ => v) = (k, v) :: t by simp [aupsert]] at hm
      rcases List.mem_cons.mp hm with h | h
      · injection h with h1 h2; exact Or.inl ⟨h1, h2⟩
      · exact Or.inr (List.mem_cons_of_mem _ h)
    · rw [show aupsert ((k, w) :: t) q (fun _ => v) = (k, w) :: aupsert t q (fun _ => v) by
        simp [aupsert, hk]] at hm
      rcases List.mem_cons.mp hm with h | h
      · exact Or.inr (h ▸ List.mem_cons_self _ _)
      · rcases ih h with h' | h'
        · exact Or.inl h'
        · exact Or.inr (List.mem_cons_of_mem _ h')

theorem alookup_isSome_of_mem {α : Type} (l : List (String × α)) (c : String) (i : α)
    (hm : (c, i) ∈ l) : (alookup l c).isSome = true := by
  induction l with
  | nil => simp at hm
  | cons p t ih =>
    obtain ⟨k, w⟩ := p
    by_cases hk : k = c
    · simp [alookup, hk]
    · rcases List.mem_cons.mp hm with h | h
      · have h1 : c = k := by simpa using congrArg Prod.fst h
        exact absurd h1.symm hk
      · simpa [alookup, hk] using ih h

/-! ## Correlation Store (watcher.go `WatchHandler` fields)

`iwMap` embeds the imageHashWLIDMap (imageHash to workload identifiers),
`wlidsToContainerToImageIDMap` the wlid : containerName : imageID map and
`hashedInstanceIDs` the instance-identifier set.  The mutexes of the Go
struct serialize access; the sequential embedding applies operations in
program order (claim C9 treats the locking discipline separately). -/

abbrev IWMap := List (String × List String)

abbrev WCMap := List (String × List (String × String))

structure StoreState where
  iwMap : IWMap
  wlidsToContainerToImageIDMap : WCMap
  hashedInstanceIDs : List String
  deriving DecidableEq, Repr

/-- The state with all three structures empty. -/
def emptyStore : StoreState := ⟨[], [], []⟩

/-- Dedup append used by the image-hash index and the instance-id list. -/
def addWlidDedup (l : List String) (w : String) : List String :=
  if w ∈ l then l else l ++ [w]

/-- Modelled from the spec: ImageHashIndex lookup (`iwMap.Load`); the
imageHashWLIDMap file is not under src.  Empty-result convention follows
`GetWlidsForImageHash`. -/
def iwLoad (m : IWMap) (h : String) : Option (List String) := alookup m h

/-- Modelled from the spec: ImageHashIndex insertion (`iwMap.Add`), mapping
an image hash to a deduplicated set of workload identifiers. -/
def iwAdd (m : IWMap) (h : String) (ws : List String) : IWMap :=
  aupsert m h (fun o => ws.foldl addWlidDedup (o.getD []))

/-- The suffix after the last `@` of a character list (the whole list when
no `@` occurs). -/
def takeAfterLastAt (cs : List Char) : List Char :=
  (cs.reverse.takeWhile (fun ch => ch ≠ '@')).reverse

/-- Removes a leading `sha256:` scheme. -/
def stripSha256 (cs : List Char) : List Char :=
  if cs.take 7 = ['s', 'h', 'a', '2', '5', '6', ':'] then cs.drop 7 else cs

/-- Modelled from the spec: the image hash is the content digest extracted
from an image reference (extractImageHash is not under src).  The part after
the last `@` separator is taken, with a leading `sha256:` scheme removed, so
that `repo/img@sha256:aaa` yields `aaa` as in the spec scenario. -/
def extractImageHash (imageID : String) : String :=
  ⟨stripSha256 (takeAfterLastAt imageID.data)⟩

/-- watcher.go `addToImageIDToWlidsMap`: skips empty wlid lists, hashes the
image reference, and adds to the image-hash index. -/
def addToImageIDToWlidsMap (st : StoreState) (imageID : String) (wlids : List String) :
    StoreState :=
  if wlids = [] then st
  else { st with iwMap := iwAdd st.iwMap (extractImageHash imageID) wlids }

/-- watcher.go `addToWlidsToContainerToImageIDMap`: creates the inner map on
first use, then overwrites the container entry. -/
def addToWlidsToContainerToImageIDMap (st : StoreState) (wlid containerName imageID : String) :
    StoreState :=
  { st with wlidsToContainerToImageIDMap :=
      (aupsert st.wlidsToContainerToImageIDMap wlid
        (fun o => aupsert (o.getD []) containerName (fun _ => imageID))) }

/-- watcher.go `addToInstanceIDsList`: appends the hashed instance id if not
already present.  Instance ids are modelled as their hashed strings (the
source calls GetHashed on the generated id). -/
def addToInstanceIDsList (st : StoreState) (h : String) : StoreState :=
  { st with hashedInstanceIDs :=
      if h ∈ st.hashedInstanceIDs then st.hashedInstanceIDs
      else st.hashedInstanceIDs ++ [h] }

/-- watcher.go `listInstanceIDs` (read under the instance-ids mutex). -/
def listInstanceIDs (st : StoreState) : List String := st.hashedInstanceIDs

/-- watcher.go `GetContainerToImageIDForWlid`: empty map when absent. -/
def GetContainerToImageIDForWlid (st : StoreState) (wlid : String) : List (String × String) :=
  (alookup st.wlidsToContainerToImageIDMap wlid).getD []

/-- watcher.go `isWlidInMap`. -/
def isWlidInMap (st : StoreState) (wlid : String) : Bool :=
  (alookup st.wlidsToContainerToImageIDMap wlid).isSome

/-- Container-level lookup in the workload container index. -/
def lookupWC (st : StoreState) (wlid containerName : String) : Option String :=
  (alookup st.wlidsToContainerToImageIDMap wlid).bind (fun m => alookup m containerName)

/-- watcher.go `cleanUpIDs`: clears all three structures. -/
def cleanUpIDs (_ : StoreState) : StoreState := emptyStore

/-! ## Pods, events and the extraction helpers -/

structure ContainerStatus where
  name : String
  imageID : String
  running : Bool
  deriving DecidableEq, Repr

structure Pod where
  name : String
  nspace : String
  phase : String
  containerStatuses : List ContainerStatus
  deriving DecidableEq, Repr

/-- The Running pod phase (core1.PodRunning). -/
def podRunning : String := "Running"

/-- watcher.go `buildIDs` inner loop: at least one container reports a
running state. -/
def hasOneContainerRunning (pod : Pod) : Bool :=
  pod.containerStatuses.any (·.running)

/-- Modelled from the spec: per-container (name, imageReference) extraction
for containers currently reporting Running state (the function
extractImageIDsToContainersFromPod is not under src; the spec describes the
extraction per container, so the imageID-to-containers grouping of the
source is carried flattened as (container, imageID) pairs). -/
def extractImageIDsToContainersFromPod (pod : Pod) : List (String × String) :=
  (pod.containerStatuses.filter (·.running)).map (fun cs => (cs.name, cs.imageID))

/-- Modelled from the spec: utils.ExtractContainersToImageIDsFromPod (not
under src) returns the Go map containerName to imageReference for containers
currently reporting Running state; embedded as an `aupsert` fold so that
later writes overwrite as in a Go map. -/
def ExtractContainersToImageIDsFromPod (pod : Pod) : List (String × String) :=
  (extractImageIDsToContainersFromPod pod).foldl
    (fun m ci => aupsert m ci.1 (fun _ => ci.2)) []

/-- watcher.go `getNewContainerToImageIDsFromPod`: the containerName to
imageReference pairs of the pod whose image hash is absent from the
image-hash index. -/
def getNewContainerToImageIDsFromPod (iw : IWMap) (pod : Pod) : List (String × String) :=
  (extractImageIDsToContainersFromPod pod).foldl
    (fun m ci =>
      if (iwLoad iw (extractImageHash ci.2)).isNone then aupsert m ci.1 (fun _ => ci.2)
      else m) []

/-- Modelled from the spec: the outbound ScanCommand carries the target
workload and a containerName to imageReference map (getImageScanCommand is
not under src). -/
structure Command where
  wlid : String
  containers : List (String × String)
  deriving DecidableEq, Repr

/-- Modelled from the spec: ScanCommand construction. -/
def getImageScanCommand (wlid : String) (containers : List (String × String)) : Command :=
  ⟨wlid, containers⟩

inductive EventType where
  | added
  | modified
  | deleted
  deriving DecidableEq, Repr

/-- A watch event for the pod stream.  `obj` is `none` when the payload is
not a Pod (the failed dynamic cast); `podStillExists` is the result of the
point read re-verifying existence; `parent` the result of
`getParentIDForPod` (owner-chain walk); `instIDs` the result of
GenerateInstanceIDFromPod, as hashed strings.  These collaborator results
are deterministic for a fixed cluster state, so they ride on the event. -/
structure PodEvent where
  type : EventType
  obj : Option Pod
  podStillExists : Bool
  parent : Option String
  instIDs : Option (List String)
  deriving DecidableEq, Repr

/-- watcher.go `getPodFromEventIfRunning`: only Modified events carrying a
pod in Running phase that still exists pass the filter. -/
def getPodFromEventIfRunning (e : PodEvent) : Option Pod :=
  if e.type ≠ EventType.modified then none
  else
    match e.obj with
    | none => none
    | some pod =>
      if pod.phase ≠ podRunning then none
      else if e.podStillExists then some pod
      else none

/-- Result of one iteration of the `handlePodWatcher` loop: the store state,
the command assigned by the decision step (`cmd` in the source), and the
commands actually sent to the outbound queue. -/
structure PodStepResult where
  state : StoreState
  produced : Option Command
  emitted : List Command
  deriving DecidableEq, Repr

/-- The new-image registration loop of `handlePodWatcher` (and the
registration loop of `buildIDs`): for every pair, add imageHash to wlid and
(wlid, container) to imageID. -/
def registerNewPairs (st : StoreState) (wlid : String) (prs : List (String × String)) :
    StoreState :=
  prs.foldl
    (fun acc ci =>
      addToWlidsToContainerToImageIDMap (addToImageIDToWlidsMap acc ci.2 [wlid]) wlid ci.1 ci.2)
    st

/-- The new-workload registration loop of `handlePodWatcher`: only
(wlid, container) to imageID entries are added. -/
def registerWcPairs (st : StoreState) (wlid : String) (prs : List (String × String)) :
    StoreState :=
  prs.foldl (fun acc ci => addToWlidsToContainerToImageIDMap acc wlid ci.1 ci.2) st

/-- The instance-id saving loop (`for i := range instanceID`). -/
def addInstanceIDs (st : StoreState) (ids : List String) : StoreState :=
  ids.foldl addToInstanceIDsList st

/-- One iteration of the `handlePodWatcher` event loop (watcher.go lines
657-719): filter, parent resolution, new/known classification, decision,
instance-id recording, emission.  Instance-id generation failure skips the
rest of the iteration (`continue`), so the assigned command is not sent. -/
def handlePodWatcherStep (st : StoreState) (e : PodEvent) : PodStepResult :=
  match getPodFromEventIfRunning e with
  | none => ⟨st, none, []⟩
  | some pod =>
    match e.parent with
    | none => ⟨st, none, []⟩
    | some parentWlid =>
      let newCI := getNewContainerToImageIDsFromPod st.iwMap pod
      if newCI ≠ [] then
        let st1 := registerNewPairs st parentWlid newCI
        let cmd := getImageScanCommand parentWlid newCI
        match e.instIDs with
        | none => ⟨st1, some cmd, []⟩
        | some ids => ⟨addInstanceIDs st1 ids, some cmd, [cmd]⟩
      else if isWlidInMap st parentWlid then ⟨st, none, []⟩
      else
        let cs := ExtractContainersToImageIDsFromPod pod
        let st1 := registerWcPairs st parentWlid cs
        let cmd := getImageScanCommand parentWlid cs
        match e.instIDs with
        | none => ⟨st1, some cmd, []⟩
        | some ids => ⟨addInstanceIDs st1 ids, some cmd, [cmd]⟩

/-! ## buildIDs, cleanUp and the constructor -/

/-- A pod of a full listing together with the deterministic collaborator
results for it (owner-chain walk target as a wlid, generated instance
ids). -/
structure ListedPod where
  pod : Pod
  parent : Option String
  instIDs : Option (List String)
  deriving DecidableEq, Repr

/-- One iteration of the `buildIDs` loop (watcher.go lines 493-543): skip
non-Running pods, skip pods with no running container, skip pods whose
parent resolution or instance-id generation fails; otherwise record the
instance ids and register every image pair. -/
def buildIDsStep (st : StoreState) (lp : ListedPod) : StoreState :=
  if lp.pod.phase ≠ podRunning then st
  else if ¬ hasOneContainerRunning lp.pod then st
  else
    match lp.parent with
    | none => st
    | some parentWlid =>
      match lp.instIDs with
      | none => st
      | some ids =>
        registerNewPairs (addInstanceIDs st ids) parentWlid
          (extractImageIDsToContainersFromPod lp.pod)

/-- watcher.go `buildIDs`. -/
def buildIDs (st : StoreState) (podList : List ListedPod) : StoreState :=
  podList.foldl buildIDsStep st

/-- watcher.go `cleanUp`: a failed listing leaves the store untouched;
otherwise all three structures are cleared and rebuilt from the listing.
`buildIDs` sends nothing, so the command component is always empty. -/
def cleanUp (st : StoreState) (listing : Option (List ListedPod)) :
    StoreState × List Command :=
  match listing with
  | none => (st, [])
  | some podsList => (buildIDs (cleanUpIDs st) podsList, [])

/-- Modelled from the spec: NewImageHashWLIDsMapFrom (not under src) builds
the ImageHashIndex from the seed map given to the constructor. -/
def NewImageHashWLIDsMapFrom (m : List (String × List String)) : IWMap :=
  m.foldl (fun acc hw => iwAdd acc hw.1 hw.2) []

structure WatchHandlerState where
  store : StoreState
  currentPodListResourceVersion : String
  deriving DecidableEq, Repr

inductive ConstructorAction where
  | startCleanUpAndTriggerScanRoutine
  deriving DecidableEq, Repr

/-- watcher.go `NewWatchHandler`: seed the maps from the arguments, list all
pods; on listing failure return the error (no handler, no routine); on
success build the ids, store the listing resource version and start the
clean-up routine. -/
def NewWatchHandler (imageIDsToWLIDsMap : List (String × List String))
    (instanceIDs : List String) (listing : Option (List ListedPod × String)) :
    Option WatchHandlerState × List ConstructorAction :=
  let st0 : StoreState := ⟨NewImageHashWLIDsMapFrom imageIDsToWLIDsMap, [], instanceIDs⟩
  match listing with
  | none => (none, [])
  | some (podsList, rv) =>
    (some ⟨buildIDs st0 podsList, rv⟩, [ConstructorAction.startCleanUpAndTriggerScanRoutine])

/-! ## Per-kind event handlers -/

inductive WatcherErr where
  | unsupportedObject
  | missingWLIDAnnot
  | deleteFailed
  deriving DecidableEq, Repr

/-- Output of one handler iteration: issued storage deletions (namespace,
name), errors sent on the error channel, produced scan commands. -/
structure HandlerOutput where
  deletes : List (String × String)
  errors : List WatcherErr
  commands : List Command
  deriving DecidableEq, Repr

structure VulnerabilityManifest where
  name : String
  nspace : String
  withRelevancy : Bool
  deriving DecidableEq, Repr

/-- A vulnerability-manifest watch event; `obj` is `none` when the payload
fails the dynamic cast. -/
structure VMEvent where
  type : EventType
  obj : Option VulnerabilityManifest
  deriving DecidableEq, Repr

/-- The correlating-key check of the vulnerability-manifest handler:
relevancy-tracked manifests check the instance-id set by manifest name,
others check the image-hash index by manifest name. -/
def vmHasObject (st : StoreState) (m : VulnerabilityManifest) : Bool :=
  if m.withRelevancy then (listInstanceIDs st).contains m.name
  else (iwLoad st.iwMap m.name).isSome

/-- One iteration of watcher.go `HandleVulnerabilityManifestEvents` (lines
186-217): Deleted events are skipped before the cast; a failed cast sends
an error; an absent correlating key deletes the manifest (the Delete result
is discarded by the source); nothing else happens. -/
def HandleVulnerabilityManifestEvent (st : StoreState) (e : VMEvent) : HandlerOutput :=
  if e.type = EventType.deleted then ⟨[], [], []⟩
  else
    match e.obj with
    | none => ⟨[], [WatcherErr.unsupportedObject], []⟩
    | some m =>
      if vmHasObject st m then ⟨[], [], []⟩
      else ⟨[(m.nspace, m.name)], [], []⟩

structure SBOMRecord where
  name : String
  nspace : String
  deriving DecidableEq, Repr

/-- An SBOM watch event; `deleteFails` carries the storage Delete result
for the orphan-deletion path (forwarded to the error channel on failure). -/
structure SBOMEvent where
  type : EventType
  obj : Option SBOMRecord
  deleteFails : Bool
  deriving DecidableEq, Repr

/-- One iteration of watcher.go `HandleSBOMEvents` (lines 256-282): the
cast happens before the Deleted check; a manifest name absent from the
image-hash index is deleted from storage, forwarding a Delete error if any;
no command is ever produced. -/
def HandleSBOMEvent (st : StoreState) (e : SBOMEvent) : HandlerOutput :=
  match e.obj with
  | none => ⟨[], [WatcherErr.unsupportedObject], []⟩
  | some m =>
    if e.type = EventType.deleted then ⟨[], [], []⟩
    else if (iwLoad st.iwMap m.name).isSome then ⟨[], [], []⟩
    else ⟨[(m.nspace, m.name)], if e.deleteFails then [WatcherErr.deleteFailed] else [], []⟩

structure FilteredSBOM where
  name : String
  nspace : String
  wlidAnnot : Option String
  deriving DecidableEq, Repr

/-- A filtered-SBOM watch event; `obj` is `none` when the payload fails the
dynamic cast, `wlidAnnot` carries the workload-identifier annotation. -/
structure FilteredSBOMEvent where
  type : EventType
  obj : Option FilteredSBOM
  deriving DecidableEq, Repr

/-- One iteration of watcher.go `HandleSBOMFilteredEvents` (lines 219-251):
the cast happens before the Deleted check (so a Deleted event with a
non-filtered-SBOM payload still sends an error); a name absent from the
instance-id set deletes the artifact; a present name requires the
workload-identifier annotation, and produces exactly one command from the
workload's known container map. -/
def HandleSBOMFilteredEvent (st : StoreState) (e : FilteredSBOMEvent) : HandlerOutput :=
  match e.obj with
  | none => ⟨[], [WatcherErr.unsupportedObject], []⟩
  | some m =>
    if e.type = EventType.deleted then ⟨[], [], []⟩
    else if m.name ∉ st.hashedInstanceIDs then ⟨[(m.nspace, m.name)], [], []⟩
    else
      match m.wlidAnnot with
      | none => ⟨[], [WatcherErr.missingWLIDAnnot], []⟩
      | some wlid => ⟨[], [], [getImageScanCommand wlid (GetContainerToImageIDForWlid st wlid)]⟩

/-! ## Locking discipline of the correlation structures

The three structures are guarded by `instanceIDsMutex`,
`wlidsToContainerToImageIDMapMutex` and the internal mutex of the
imageHashWLIDMap (per the spec, each structure has independent mutual
exclusion).  The table below transcribes every access to one of the three
structures in watcher.go, with the source location and whether the access
happens under that structure's mutex. -/

inductive CorrelationStructure where
  | imageHashIndex
  | workloadContainerIndex
  | instanceIDSet
  deriving DecidableEq, Repr

structure AccessSite where
  fn : String
  line : Nat
  target : CorrelationStructure
  guarded : Bool
  deriving DecidableEq, Repr

/-- Every access in watcher.go to one of the three correlation structures.
Accesses made through the accessor functions (`listInstanceIDs`,
`GetContainerToImageIDForWlid`, `isWlidInMap`, `addToInstanceIDsList`,
`addToWlidsToContainerToImageIDMap`, the map clears, and the
imageHashWLIDMap methods, which lock internally per the spec) are guarded;
the only raw field read is `wh.hashedInstanceIDs` in
`HandleSBOMFilteredEvents` (line 236), performed without taking
`instanceIDsMutex`. -/
def watcherAccessSites : List AccessSite :=
  [ ⟨"listInstanceIDs", 107, CorrelationStructure.instanceIDSet, true⟩,
    ⟨"GetWlidsToContainerToImageIDMap", 115, CorrelationStructure.workloadContainerIndex, true⟩,
    ⟨"HandleVulnerabilityManifestEvents", 206, CorrelationStructure.instanceIDSet, true⟩,
    ⟨"HandleVulnerabilityManifestEvents", 210, CorrelationStructure.imageHashIndex, true⟩,
    ⟨"HandleSBOMFilteredEvents", 236, CorrelationStructure.instanceIDSet, false⟩,
    ⟨"HandleSBOMFilteredEvents", 247, CorrelationStructure.workloadContainerIndex, true⟩,
    ⟨"HandleSBOMEvents", 273, CorrelationStructure.imageHashIndex, true⟩,
    ⟨"cleanUpInstanceIDs", 427, CorrelationStructure.instanceIDSet, true⟩,
    ⟨"cleanUpIDs", 433, CorrelationStructure.imageHashIndex, true⟩,
    ⟨"cleanUpWlidsToContainerToImageIDMap", 439, CorrelationStructure.workloadContainerIndex, true⟩,
    ⟨"GetWlidsForImageHash", 446, CorrelationStructure.imageHashIndex, true⟩,
    ⟨"GetContainerToImageIDForWlid", 454, CorrelationStructure.workloadContainerIndex, true⟩,
    ⟨"addToInstanceIDsList", 465, CorrelationStructure.instanceIDSet, true⟩,
    ⟨"addToImageIDToWlidsMap", 479, CorrelationStructure.imageHashIndex, true⟩,
    ⟨"addToWlidsToContainerToImageIDMap", 483, CorrelationStructure.workloadContainerIndex, true⟩,
    ⟨"getNewContainerToImageIDsFromPod", 579, CorrelationStructure.imageHashIndex, true⟩,
    ⟨"isWlidInMap", 722, CorrelationStructure.workloadContainerIndex, true⟩ ]

/-! ## Watch-reconnect state machines

`PodWatchStep` embeds the control flow of `PodWatch` together with
`handlePodWatcher`'s stream-close path (`restartResourceVersion`):
opening the subscription fails and is retried after the fixed backoff with
no ceiling, while a server-closed stream triggers a pod relisting
(refreshing the stored resource version only when the listing succeeds) and
an immediate resubscribe attempt with no backoff sleep.  `ReconnectStep`
embeds the select-loop pattern shared by `SBOMWatch`, `SBOMFilteredWatch`
and `VulnerabilityManifestWatch`, whose `notifyWatcherDown` sleeps for the
retry interval before every new subscription attempt. -/

/-- The fixed retry backoff (watcher.go `retryInterval`), in seconds. -/
def retryIntervalSeconds : Nat := 3

inductive PWState where
  | awaitSubscribe (rv : String)
  | handling (rv : String)
  | terminated
  deriving DecidableEq, Repr

inductive PWInput where
  | subscribeOk
  | subscribeErr
  | podEvent
  | streamClosed (listResult : Option String)
  deriving DecidableEq, Repr

inductive PWAction where
  | subscribeAttempt (rv : String)
  | sleepRetryInterval
  | listPodsAttempt
  | handleEvent
  deriving DecidableEq, Repr

/-- One step of the PodWatch loop (watcher.go lines 413-424 and 657-719).
In `awaitSubscribe rv` the loop calls `getPodWatcher` with the stored
resource version: on error it sleeps for the retry interval and loops; on
success `handlePodWatcher` runs.  A closed result channel runs
`restartResourceVersion`, whose relisting refreshes the stored version only
on success, and returns to the outer loop, which resubscribes immediately.
The `terminated` state has no transition into it: the loops never exit. -/
def PodWatchStep : PWState → PWInput → PWState × List PWAction
  | PWState.awaitSubscribe rv, PWInput.subscribeOk =>
      (PWState.handling rv, [PWAction.subscribeAttempt rv])
  | PWState.awaitSubscribe rv, PWInput.subscribeErr =>
      (PWState.awaitSubscribe rv, [PWAction.subscribeAttempt rv, PWAction.sleepRetryInterval])
  | PWState.awaitSubscribe rv, _ => (PWState.awaitSubscribe rv, [])
  | PWState.handling _, PWInput.streamClosed (some rv2) =>
      (PWState.awaitSubscribe rv2, [PWAction.listPodsAttempt])
  | PWState.handling rv, PWInput.streamClosed none =>
      (PWState.awaitSubscribe rv, [PWAction.listPodsAttempt])
  | PWState.handling rv, PWInput.podEvent => (PWState.handling rv, [PWAction.handleEvent])
  | PWState.handling rv, _ => (PWState.handling rv, [])
  | PWState.terminated, _ => (PWState.terminated, [])

/-- Run of the PodWatch machine over an input trace, concatenating the
emitted actions. -/
def PodWatchRun : PWState → List PWInput → PWState × List PWAction
  | s, [] => (s, [])
  | s, i :: is =>
    let r1 := PodWatchStep s i
    let r2 := PodWatchRun r1.1 is
    (r2.1, r1.2 ++ r2.2)

inductive RWState where
  | disconnected
  | connected
  | terminated
  deriving DecidableEq, Repr

inductive RWInput where
  | subscribeOk
  | subscribeErr
  | event
  | handlerError
  | streamClosed
  deriving DecidableEq, Repr

inductive RWAction where
  | subscribeAttempt
  | sleepRetryInterval
  | forwardEvent
  | logError
  deriving DecidableEq, Repr

/-- One step of the generic reconnect loop shared by `SBOMWatch`,
`SBOMFilteredWatch` and `VulnerabilityManifestWatch`: a failed subscription
attempt and a server-closed stream both pass through `notifyWatcherDown`,
which sleeps for the retry interval before the next attempt; handler errors
are logged and do not close the subscription; there is no exit. -/
def ReconnectStep : RWState → RWInput → RWState × List RWAction
  | RWState.disconnected, RWInput.subscribeOk => (RWState.connected, [RWAction.subscribeAttempt])
  | RWState.disconnected, RWInput.subscribeErr =>
      (RWState.disconnected, [RWAction.subscribeAttempt, RWAction.sleepRetryInterval])
  | RWState.disconnected, _ => (RWState.disconnected, [])
  | RWState.connected, RWInput.event => (RWState.connected, [RWAction.forwardEvent])
  | RWState.connected, RWInput.handlerError => (RWState.connected, [RWAction.logError])
  | RWState.connected, RWInput.streamClosed =>
      (RWState.disconnected, [RWAction.sleepRetryInterval])
  | RWState.connected, _ => (RWState.connected, [])
  | RWState.terminated, _ => (RWState.terminated, [])

/-! ## Map-level views of the registration folds -/

/-- The workload-container map update performed by
`addToWlidsToContainerToImageIDMap`, on the map alone. -/
def wcAddMap (m : WCMap) (w c i : String) : WCMap :=
  aupsert m w (fun o => aupsert (o.getD []) c (fun _ => i))

/-- Container-level lookup on a workload-container map. -/
def wcLookupMap (m : WCMap) (w c : String) : Option String :=
  (alookup m w).bind (fun mm => alookup mm c)

/-- The workload-container part of a registration loop, on the map alone. -/
def wcFold (m : WCMap) (w : String) (prs : List (String × String)) : WCMap :=
  prs.foldl (fun acc ci => wcAddMap acc w ci.1 ci.2) m

/-- The image-hash part of a registration loop, on the index alone. -/
def iwRegFold (m : IWMap) (w : String) (prs : List (String × String)) : IWMap :=
  prs.foldl (fun acc ci => iwAdd acc (extractImageHash ci.2) [w]) m

/-- The instance-id recording loop, on the list alone. -/
def instFold (l : List String) (ids : List String) : List String :=
  ids.foldl (fun acc h => if h ∈ acc then acc else acc ++ [h]) l

theorem addIW_wcMap (st : StoreState) (i : String) (ws : List String) :
    (addToImageIDToWlidsMap st i ws).wlidsToContainerToImageIDMap =
      st.wlidsToContainerToImageIDMap := by
  unfold addToImageIDToWlidsMap; split <;> rfl

theorem addIW_inst (st : StoreState) (i : String) (ws : List String) :
    (addToImageIDToWlidsMap st i ws).hashedInstanceIDs = st.hashedInstanceIDs := by
  unfold addToImageIDToWlidsMap; split <;> rfl

theorem addIW_iwMap_cons (st : StoreState) (i : String) (w : String) :
    (addToImageIDToWlidsMap st i [w]).iwMap = iwAdd st.iwMap (extractImageHash i) [w] := by
  unfold addToImageIDToWlidsMap
  split
  · next h => exact absurd h (by simp)
  · rfl

theorem registerNewPairs_fields (w : String) (prs : List (String × String)) :
    ∀ st : StoreState,
      registerNewPairs st w prs =
        ⟨iwRegFold st.iwMap w prs, wcFold st.wlidsToContainerToImageIDMap w prs,
          st.hashedInstanceIDs⟩ := by
  induction prs with
  | nil => intro st; cases st; rfl
  | cons ci t ih =>
    intro st
    have hstep : registerNewPairs st w (ci :: t) =
        registerNewPairs
          (addToWlidsToContainerToImageIDMap (addToImageIDToWlidsMap st ci.2 [w]) w ci.1 ci.2)
          w t := by
      simp [registerNewPairs, List.foldl_cons]
    rw [hstep, ih]
    have h1 : (addToWlidsToContainerToImageIDMap (addToImageIDToWlidsMap st ci.2 [w])
        w ci.1 ci.2).iwMap = iwAdd st.iwMap (extractImageHash ci.2) [w] := by
      simpa [addToWlidsToContainerToImageIDMap] using addIW_iwMap_cons st ci.2 w
    have h2 : (addToWlidsToContainerToImageIDMap (addToImageIDToWlidsMap st ci.2 [w])
        w ci.1 ci.2).wlidsToContainerToImageIDMap =
        wcAddMap st.wlidsToContainerToImageIDMap w ci.1 ci.2 := by
      simp [addToWlidsToContainerToImageIDMap, wcAddMap, addIW_wcMap]
    have h3 : (addToWlidsToContainerToImageIDMap (addToImageIDToWlidsMap st ci.2 [w])
        w ci.1 ci.2).hashedInstanceIDs = st.hashedInstanceIDs := by
      simp [addToWlidsToContainerToImageIDMap, addIW_inst]
    rw [h1, h2, h3]
    simp [iwRegFold, wcFold, List.foldl_cons]

theorem registerWcPairs_fields (w : String) (prs : List (String × String)) :
    ∀ st : StoreState,
      registerWcPairs st w prs =
        ⟨st.iwMap, wcFold st.wlidsToContainerToImageIDMap w prs, st.hashedInstanceIDs⟩ := by
  induction prs with
  | nil => intro st; cases st; rfl
  | cons ci t ih =>
    intro st
    have hstep : registerWcPairs st w (ci :: t) =
        registerWcPairs (addToWlidsToContainerToImageIDMap st w ci.1 ci.2) w t := by
      simp [registerWcPairs, List.foldl_cons]
    rw [hstep, ih]
    simp [addToWlidsToContainerToImageIDMap, wcAddMap, wcFold, List.foldl_cons]

theorem addInstanceIDs_fields (ids : List String) :
    ∀ st : StoreState,
      addInstanceIDs st ids =
        ⟨st.iwMap, st.wlidsToContainerToImageIDMap, instFold st.hashedInstanceIDs ids⟩ := by
  induction ids with
  | nil => intro st; cases st; rfl
  | cons h t ih =>
    intro st
    have hstep : addInstanceIDs st (h :: t) = addInstanceIDs (addToInstanceIDsList st h) t := by
      simp [addInstanceIDs, List.foldl_cons]
    rw [hstep, ih]
    simp [addToInstanceIDsList, instFold, List.foldl_cons]

/-! ## Lookup lemmas for the map-level folds -/

theorem wcLookupMap_wcAddMap (m : WCMap) (w' c' i w c : String) :
    wcLookupMap (wcAddMap m w' c' i) w c =
      if w' = w ∧ c' = c then some i else wcLookupMap m w c := by
  unfold wcLookupMap wcAddMap
  by_cases hw : w' = w
  · subst hw
    by_cases hc : c' = c
    · subst hc
      cases hm : alookup m w' with
      | none => simp [alookup_aupsert, hm, alookup]
      | some mm => simp [alookup_aupsert, hm]
    · cases hm : alookup m w' with
      | none => simp [alookup_aupsert, hm, hc, alookup]
      | some mm => simp [alookup_aupsert, hm, hc]
  · simp [alookup_aupsert, hw]

theorem alookup_wcAddMap_isSome (m : WCMap) (w' c' i w : String) :
    (alookup (wcAddMap m w' c' i) w).isSome = true ↔
      w = w' ∨ (alookup m w).isSome = true := by
  unfold wcAddMap
  rw [alookup_aupsert]
  by_cases hw : w' = w
  · subst hw; simp
  · have hw2 : ¬ (w = w') := fun h => hw h.symm
    simp [hw, hw2]

theorem wcFold_lookup_other (w w' c : String) (prs : List (String × String))
    (hne : w' ≠ w) :
    ∀ m : WCMap, wcLookupMap (wcFold m w prs) w' c = wcLookupMap m w' c := by
  induction prs with
  | nil => intro m; rfl
  | cons ci t ih =>
    intro m
    have : wcFold m w (ci :: t) = wcFold (wcAddMap m w ci.1 ci.2) w t := by
      simp [wcFold, List.foldl_cons]
    rw [this, ih]
    rw [wcLookupMap_wcAddMap]
    have hne2 : ¬ (w = w') := fun h => hne h.symm
    simp [hne2]

theorem wcFold_lookup_agree (w c img : String) (prs : List (String × String)) :
    ∀ m : WCMap, wcLookupMap m w c = some img → (∀ i, (c, i) ∈ prs → i = img) →
      wcLookupMap (wcFold m w prs) w c = some img := by
  induction prs with
  | nil => intro m hm _; exact hm
  | cons ci t ih =>
    intro m hm hagree
    obtain ⟨c0, i0⟩ := ci
    have hstep : wcFold m w ((c0, i0) :: t) = wcFold (wcAddMap m w c0 i0) w t := by
      simp [wcFold, List.foldl_cons]
    rw [hstep]
    refine ih _ ?_ (fun i hi => hagree i (List.mem_cons_of_mem _ hi))
    rw [wcLookupMap_wcAddMap]
    by_cases hc : c0 = c
    · subst hc
      have : i0 = img := hagree i0 (List.mem_cons_self _ _)
      simp [this]
    · simp [hc, hm]

theorem wcFold_lookup_set_agree (w c img : String) (prs : List (String × String)) :
    ∀ m : WCMap, (c, img) ∈ prs → (∀ i, (c, i) ∈ prs → i = img) →
      wcLookupMap (wcFold m w prs) w c = some img := by
  induction prs with
  | nil => intro m hm _; simp at hm
  | cons ci t ih =>
    intro m hm hagree
    obtain ⟨c0, i0⟩ := ci
    have hstep : wcFold m w ((c0, i0) :: t) = wcFold (wcAddMap m w c0 i0) w t := by
      simp [wcFold, List.foldl_cons]
    rw [hstep]
    by_cases hc : c0 = c
    · refine wcFold_lookup_agree w c img t _ ?_
        (fun i hi => hagree i (List.mem_cons_of_mem _ hi))
      rw [wcLookupMap_wcAddMap]
      have hi0 : i0 = img := hagree i0 (by rw [hc]; exact List.mem_cons_self _ _)
      simp [hc, hi0]
    · have hmt : (c, img) ∈ t := by
        rcases List.mem_cons.mp hm with h | h
        · have hcc : c = c0 := by simpa using congrArg Prod.fst h
          exact absurd hcc.symm hc
        · exact h
      exact ih _ hmt (fun i hi => hagree i (List.mem_cons_of_mem _ hi))

theorem mem_akeys_of_mem {l : List (String × String)} {c i : String} (h : (c, i) ∈ l) :
    c ∈ akeys l := by
  induction l with
  | nil => simp at h
  | cons p t ih =>
    obtain ⟨k, v⟩ := p
    rcases List.mem_cons.mp h with h' | h'
    · have hck : c = k := by simpa using congrArg Prod.fst h'
      simp [akeys, hck]
    · simp only [akeys, List.mem_cons]
      exact Or.inr (ih h')

theorem nodupKeys_val_eq {l : List (String × String)} (hnd : (akeys l).Nodup)
    {c i1 i2 : String} (h1 : (c, i1) ∈ l) (h2 : (c, i2) ∈ l) : i1 = i2 := by
  induction l with
  | nil => simp at h1
  | cons p t ih =>
    obtain ⟨k, v⟩ := p
    have hnd' : k ∉ akeys t ∧ (akeys t).Nodup := by simpa [akeys] using hnd
    rcases List.mem_cons.mp h1 with ha | ha <;> rcases List.mem_cons.mp h2 with hb | hb
    · have e1 : i1 = v := by simpa using congrArg Prod.snd ha
      have e2 : i2 = v := by simpa using congrArg Prod.snd hb
      rw [e1, e2]
    · have hk : c = k := by simpa using congrArg Prod.fst ha
      exact absurd (hk ▸ mem_akeys_of_mem hb) hnd'.1
    · have hk : c = k := by simpa using congrArg Prod.fst hb
      exact absurd (hk ▸ mem_akeys_of_mem ha) hnd'.1
    · exact ih hnd'.2 ha hb

theorem wcFold_lookup_set_nodup (w c img : String) (prs : List (String × String)) (m : WCMap)
    (hnd : (akeys prs).Nodup) (hm : (c, img) ∈ prs) :
    wcLookupMap (wcFold m w prs) w c = some img :=
  wcFold_lookup_set_agree w c img prs m hm (fun _ hi => nodupKeys_val_eq hnd hi hm)

theorem wcFold_key_isSome_elim (w w' : String) (prs : List (String × String)) :
    ∀ m : WCMap, (alookup (wcFold m w prs) w').isSome = true →
      w' = w ∨ (alookup m w').isSome = true := by
  induction prs with
  | nil => intro m h; exact Or.inr h
  | cons ci t ih =>
    intro m h
    have hstep : wcFold m w (ci :: t) = wcFold (wcAddMap m w ci.1 ci.2) w t := by
      simp [wcFold, List.foldl_cons]
    rw [hstep] at h
    rcases ih _ h with h' | h'
    · exact Or.inl h'
    · rcases (alookup_wcAddMap_isSome m w ci.1 ci.2 w').mp h' with h'' | h''
      · exact Or.inl h''
      · exact Or.inr h''

theorem wcFold_key_isSome_mono (w w' : String) (prs : List (String × String)) :
    ∀ m : WCMap, (alookup m w').isSome = true →
      (alookup (wcFold m w prs) w').isSome = true := by
  induction prs with
  | nil => intro m h; exact h
  | cons ci t ih =>
    intro m h
    have hstep : wcFold m w (ci :: t) = wcFold (wcAddMap m w ci.1 ci.2) w t := by
      simp [wcFold, List.foldl_cons]
    rw [hstep]
    exact ih _ ((alookup_wcAddMap_isSome m w ci.1 ci.2 w').mpr (Or.inr h))

theorem wcFold_key_isSome_set (w : String) (prs : List (String × String)) (m : WCMap)
    (hne : prs ≠ []) : (alookup (wcFold m w prs) w).isSome = true := by
  cases prs with
  | nil => exact absurd rfl hne
  | cons ci t =>
    have hstep : wcFold m w (ci :: t) = wcFold (wcAddMap m w ci.1 ci.2) w t := by
      simp [wcFold, List.foldl_cons]
    rw [hstep]
    exact wcFold_key_isSome_mono w w t _
      ((alookup_wcAddMap_isSome m w ci.1 ci.2 w).mpr (Or.inl rfl))

theorem mem_foldl_addWlidDedup (ws : List String) :
    ∀ acc x, x ∈ ws.foldl addWlidDedup acc ↔ x ∈ acc ∨ x ∈ ws := by
  induction ws with
  | nil => intro acc x; simp
  | cons w t ih =>
    intro acc x
    rw [List.foldl_cons, ih]
    constructor
    · intro h
      rcases h with h | h
      · by_cases hw : w ∈ acc
        · simp [addWlidDedup, hw] at h
          exact Or.inl h
        · simp [addWlidDedup, hw] at h
          rcases h with h | h
          · exact Or.inl h
          · exact Or.inr (by simp [h])
      · exact Or.inr (by simp [h])
    · intro h
      rcases h with h | h
      · left
        by_cases hw : w ∈ acc <;> simp [addWlidDedup, hw, h]
      · rcases List.mem_cons.mp h with h | h
        · left
          by_cases hw : w ∈ acc <;> simp [addWlidDedup, hw, h]
        · exact Or.inr h

theorem iwLoad_iwAdd (m : IWMap) (h h' : String) (ws : List String) :
    iwLoad (iwAdd m h' ws) h =
      if h' = h then some (ws.foldl addWlidDedup ((iwLoad m h').getD [])) else iwLoad m h := by
  unfold iwLoad iwAdd
  rw [alookup_aupsert]

theorem iwAdd_isSome_self (m : IWMap) (h : String) (ws : List String) :
    (iwLoad (iwAdd m h ws) h).isSome = true := by
  rw [iwLoad_iwAdd]; simp

theorem iwAdd_isSome_mono (m : IWMap) (h h' : String) (ws : List String)
    (hs : (iwLoad m h).isSome = true) : (iwLoad (iwAdd m h' ws) h).isSome = true := by
  rw [iwLoad_iwAdd]
  by_cases he : h' = h <;> simp [he, hs]

theorem mem_iwAdd_self (m : IWMap) (h : String) (ws : List String) (x : String)
    (hx : x ∈ ws) : x ∈ (iwLoad (iwAdd m h ws) h).getD [] := by
  rw [iwLoad_iwAdd]
  simp only [if_pos rfl, Option.getD_some]
  exact (mem_foldl_addWlidDedup ws _ x).mpr (Or.inr hx)

theorem mem_iwAdd_mono (m : IWMap) (h h' : String) (ws : List String) (x : String)
    (hx : x ∈ (iwLoad m h).getD []) : x ∈ (iwLoad (iwAdd m h' ws) h).getD [] := by
  rw [iwLoad_iwAdd]
  by_cases he : h' = h
  · subst he
    simp only [if_pos rfl, Option.getD_some]
    exact (mem_foldl_addWlidDedup ws _ x).mpr (Or.inl hx)
  · simp [he, hx]

theorem iwRegFold_isSome_mono (w h : String) (prs : List (String × String)) :
    ∀ m : IWMap, (iwLoad m h).isSome = true →
      (iwLoad (iwRegFold m w prs) h).isSome = true := by
  induction prs with
  | nil => intro m hs; exact hs
  | cons ci t ih =>
    intro m hs
    have hstep : iwRegFold m w (ci :: t) =
        iwRegFold (iwAdd m (extractImageHash ci.2) [w]) w t := by
      simp [iwRegFold, List.foldl_cons]
    rw [hstep]
    exact ih _ (iwAdd_isSome_mono m h (extractImageHash ci.2) [w] hs)

theorem iwRegFold_isSome_set (w c i : String) (prs : List (String × String)) :
    ∀ m : IWMap, (c, i) ∈ prs →
      (iwLoad (iwRegFold m w prs) (extractImageHash i)).isSome = true := by
  induction prs with
  | nil => intro m hm; simp at hm
  | cons ci t ih =>
    intro m hm
    have hstep : iwRegFold m w (ci :: t) =
        iwRegFold (iwAdd m (extractImageHash ci.2) [w]) w t := by
      simp [iwRegFold, List.foldl_cons]
    rw [hstep]
    rcases List.mem_cons.mp hm with h | h
    · have : ci.2 = i := by
        have := congrArg Prod.snd h; simpa using this.symm
      rw [← this]
      exact iwRegFold_isSome_mono w (extractImageHash ci.2) t _
        (iwAdd_isSome_self m (extractImageHash ci.2) [w])
    · exact ih _ h

theorem iwRegFold_mem_mono (w h x : String) (prs : List (String × String)) :
    ∀ m : IWMap, x ∈ (iwLoad m h).getD [] →
      x ∈ (iwLoad (iwRegFold m w prs) h).getD [] := by
  induction prs with
  | nil => intro m hx; exact hx
  | cons ci t ih =>
    intro m hx
    have hstep : iwRegFold m w (ci :: t) =
        iwRegFold (iwAdd m (extractImageHash ci.2) [w]) w t := by
      simp [iwRegFold, List.foldl_cons]
    rw [hstep]
    exact ih _ (mem_iwAdd_mono m h (extractImageHash ci.2) [w] x hx)

theorem iwRegFold_mem_set (w c i : String) (prs : List (String × String)) :
    ∀ m : IWMap, (c, i) ∈ prs →
      w ∈ (iwLoad (iwRegFold m w prs) (extractImageHash i)).getD [] := by
  induction prs with
  | nil => intro m hm; simp at hm
  | cons ci t ih =>
    intro m hm
    have hstep : iwRegFold m w (ci :: t) =
        iwRegFold (iwAdd m (extractImageHash ci.2) [w]) w t := by
      simp [iwRegFold, List.foldl_cons]
    rw [hstep]
    rcases List.mem_cons.mp hm with h | h
    · have hi : ci.2 = i := by
        have := congrArg Prod.snd h; simpa using this.symm
      rw [← hi]
      exact iwRegFold_mem_mono w (extractImageHash ci.2) w t _
        (mem_iwAdd_self m (extractImageHash ci.2) [w] w (by simp))
    · exact ih _ h

theorem mem_instFold (ids : List String) :
    ∀ l x, x ∈ instFold l ids ↔ x ∈ l ∨ x ∈ ids := by
  induction ids with
  | nil => intro l x; simp [instFold]
  | cons h t ih =>
    intro l x
    have hstep : instFold l (h :: t) = instFold (if h ∈ l then l else l ++ [h]) t := by
      simp [instFold, List.foldl_cons]
    rw [hstep, ih]
    by_cases hl : h ∈ l
    · simp only [if_pos hl]
      constructor
      · intro hc
        rcases hc with hc | hc
        · exact Or.inl hc
        · exact Or.inr (List.mem_cons_of_mem _ hc)
      · intro hc
        rcases hc with hc | hc
        · exact Or.inl hc
        · rcases List.mem_cons.mp hc with hc | hc
          · exact Or.inl (hc ▸ hl)
          · exact Or.inr hc
    · simp only [if_neg hl]
      constructor
      · intro hc
        rcases hc with hc | hc
        · rcases List.mem_append.mp hc with hc | hc
          · exact Or.inl hc
          · exact Or.inr (by simpa using Or.inl (by simpa using hc))
        · exact Or.inr (List.mem_cons_of_mem _ hc)
      · intro hc
        rcases hc with hc | hc
        · exact Or.inl (List.mem_append.mpr (Or.inl hc))
        · rcases List.mem_cons.mp hc with hc | hc
          · exact Or.inl (List.mem_append.mpr (Or.inr (by simp [hc])))
          · exact Or.inr hc

theorem instFold_of_subset (ids : List String) :
    ∀ l, (∀ x ∈ ids, x ∈ l) → instFold l ids = l := by
  induction ids with
  | nil => intro l _; rfl
  | cons h t ih =>
    intro l hsub
    have hl : h ∈ l := hsub h (List.mem_cons_self _ _)
    have hstep : instFold l (h :: t) = instFold (if h ∈ l then l else l ++ [h]) t := by
      simp [instFold, List.foldl_cons]
    rw [hstep, if_pos hl]
    exact ih l (fun x hx => hsub x (List.mem_cons_of_mem _ hx))

/-! ## The classification folds (new-image detection and map extraction) -/

/-- The loop body of `getNewContainerToImageIDsFromPod`, named for the
lemmas below. -/
def getNewStep (iw : IWMap) (m : List (String × String)) (ci : String × String) :
    List (String × String) :=
  if (iwLoad iw (extractImageHash ci.2)).isNone then aupsert m ci.1 (fun _ => ci.2) else m

theorem getNew_eq_foldl (iw : IWMap) (pod : Pod) :
    getNewContainerToImageIDsFromPod iw pod =
      (extractImageIDsToContainersFromPod pod).foldl (getNewStep iw) [] := rfl

theorem extract_eq_getNew_nil (pod : Pod) :
    ExtractContainersToImageIDsFromPod pod =
      getNewContainerToImageIDsFromPod [] pod := by
  have hfun : getNewStep ([] : IWMap) = fun m ci => aupsert m ci.1 (fun _ => ci.2) := by
    funext m ci
    simp [getNewStep, iwLoad, alookup]
  rw [getNew_eq_foldl, hfun]
  rfl

theorem foldl_getNewStep_nodup (iw : IWMap) (l : List (String × String)) :
    ∀ acc, (akeys acc).Nodup → (akeys (l.foldl (getNewStep iw) acc)).Nodup := by
  induction l with
  | nil => intro acc h; exact h
  | cons ci t ih =>
    intro acc h
    rw [List.foldl_cons]
    refine ih _ ?_
    unfold getNewStep
    split
    · exact nodup_akeys_aupsert acc ci.1 _ h
    · exact h

theorem foldl_getNewStep_mem_elim (iw : IWMap) (l : List (String × String)) :
    ∀ acc c i, (c, i) ∈ l.foldl (getNewStep iw) acc →
      (c, i) ∈ acc ∨ ((c, i) ∈ l ∧ (iwLoad iw (extractImageHash i)).isNone = true) := by
  induction l with
  | nil => intro acc c i h; exact Or.inl h
  | cons ci t ih =>
    intro acc c i h
    rw [List.foldl_cons] at h
    rcases ih _ c i h with h' | h'
    · unfold getNewStep at h'
      by_cases hnew : (iwLoad iw (extractImageHash ci.2)).isNone = true
      · rw [if_pos hnew] at h'
        rcases mem_aupsert_elim acc ci.1 ci.2 c i h' with ⟨hc, hi⟩ | hmem
        · refine Or.inr ⟨?_, ?_⟩
          · have hpair : (c, i) = ci := by
              obtain ⟨c0, i0⟩ := ci
              simp only at hc hi
              rw [hc, hi]
            rw [hpair]
            exact List.mem_cons_self _ _
          · rw [hi]; exact hnew
        · exact Or.inl hmem
      · rw [if_neg hnew] at h'
        exact Or.inl h'
    · exact Or.inr ⟨List.mem_cons_of_mem _ h'.1, h'.2⟩

theorem foldl_getNewStep_preserve (iw : IWMap) (l : List (String × String)) :
    ∀ acc c i, c ∉ akeys l → (c, i) ∈ acc → (c, i) ∈ l.foldl (getNewStep iw) acc := by
  induction l with
  | nil => intro acc c i _ h; exact h
  | cons ci t ih =>
    intro acc c i hk h
    rw [List.foldl_cons]
    obtain ⟨c0, i0⟩ := ci
    have hk' : c ∉ akeys t ∧ c ≠ c0 := by
      constructor
      · intro hc; exact hk (by simp [akeys]; right; exact hc)
      · intro hc; exact hk (by simp [akeys, hc])
    refine ih _ c i hk'.1 ?_
    unfold getNewStep
    split
    · exact mem_aupsert_of_ne acc c0 _ c i h hk'.2
    · exact h

theorem foldl_getNewStep_mem_intro (iw : IWMap) (l : List (String × String))
    (hnd : (akeys l).Nodup) :
    ∀ acc c i, (c, i) ∈ l → (iwLoad iw (extractImageHash i)).isNone = true →
      (c, i) ∈ l.foldl (getNewStep iw) acc := by
  induction l with
  | nil => intro acc c i h _; simp at h
  | cons ci t ih =>
    intro acc c i hm hnone
    obtain ⟨c0, i0⟩ := ci
    have hnd' : c0 ∉ akeys t ∧ (akeys t).Nodup := by simpa [akeys] using hnd
    rw [List.foldl_cons]
    rcases List.mem_cons.mp hm with h | h
    · have hc : c = c0 := by simpa using congrArg Prod.fst h
      have hi : i = i0 := by simpa using congrArg Prod.snd h
      subst hc; subst hi
      refine foldl_getNewStep_preserve iw t _ c i hnd'.1 ?_
      unfold getNewStep
      simp only
      rw [if_pos (by simpa using hnone)]
      exact mem_aupsert_self acc c i
    · exact ih hnd'.2 _ c i h hnone

theorem foldl_getNewStep_nil (iw : IWMap) (l : List (String × String))
    (hall : ∀ ci ∈ l, (iwLoad iw (extractImageHash ci.2)).isSome = true) :
    ∀ acc, l.foldl (getNewStep iw) acc = acc := by
  induction l with
  | nil => intro acc; rfl
  | cons ci t ih =>
    intro acc
    rw [List.foldl_cons]
    have hsome := hall ci (List.mem_cons_self _ _)
    have hstep : getNewStep iw acc ci = acc := by
      unfold getNewStep
      rw [if_neg (by simp [Option.isNone_iff_eq_none]; exact Option.isSome_iff_exists.mp hsome |>.elim (fun a ha => by simp [ha]))]
    rw [hstep]
    exact ih (fun x hx => hall x (List.mem_cons_of_mem _ hx)) acc

theorem akeys_extract (pod : Pod) :
    akeys (extractImageIDsToContainersFromPod pod) =
      (pod.containerStatuses.filter (·.running)).map (·.name) := by
  unfold extractImageIDsToContainersFromPod
  induction pod.containerStatuses.filter (·.running) with
  | nil => rfl
  | cons cs t ih => simp [akeys, ih]

/-- Unique container names in a pod (a Kubernetes API invariant: container
names within a pod spec are unique). -/
def podNamesNodup (pod : Pod) : Prop :=
  (pod.containerStatuses.map (·.name)).Nodup

theorem akeys_extract_nodup (pod : Pod) (h : podNamesNodup pod) :
    (akeys (extractImageIDsToContainersFromPod pod)).Nodup := by
  rw [akeys_extract]
  exact List.Nodup.sublist (List.Sublist.map _ (List.filter_sublist _)) h

theorem getNew_keys_nodup (iw : IWMap) (pod : Pod) :
    (akeys (getNewContainerToImageIDsFromPod iw pod)).Nodup := by
  rw [getNew_eq_foldl]
  exact foldl_getNewStep_nodup iw _ [] (by simp [akeys])

theorem getNew_mem_elim (iw : IWMap) (pod : Pod) (c i : String)
    (h : (c, i) ∈ getNewContainerToImageIDsFromPod iw pod) :
    (c, i) ∈ extractImageIDsToContainersFromPod pod ∧
      (iwLoad iw (extractImageHash i)).isNone = true := by
  rw [getNew_eq_foldl] at h
  rcases foldl_getNewStep_mem_elim iw _ [] c i h with h' | h'
  · simp at h'
  · exact h'

theorem getNew_mem_intro (iw : IWMap) (pod : Pod) (hnd : podNamesNodup pod) (c i : String)
    (hm : (c, i) ∈ extractImageIDsToContainersFromPod pod)
    (hnone : (iwLoad iw (extractImageHash i)).isNone = true) :
    (c, i) ∈ getNewContainerToImageIDsFromPod iw pod := by
  rw [getNew_eq_foldl]
  exact foldl_getNewStep_mem_intro iw _ (akeys_extract_nodup pod hnd) [] c i hm hnone

theorem getNew_nil (iw : IWMap) (pod : Pod)
    (hall : ∀ ci ∈ extractImageIDsToContainersFromPod pod,
      (iwLoad iw (extractImageHash ci.2)).isSome = true) :
    getNewContainerToImageIDsFromPod iw pod = [] := by
  rw [getNew_eq_foldl]
  exact foldl_getNewStep_nil iw _ hall []

theorem extract_keys_nodup (pod : Pod) :
    (akeys (ExtractContainersToImageIDsFromPod pod)).Nodup := by
  rw [extract_eq_getNew_nil]
  exact getNew_keys_nodup [] pod

theorem extract_mem_elim (pod : Pod) (c i : String)
    (h : (c, i) ∈ ExtractContainersToImageIDsFromPod pod) :
    (c, i) ∈ extractImageIDsToContainersFromPod pod := by
  rw [extract_eq_getNew_nil] at h
  exact (getNew_mem_elim [] pod c i h).1

theorem extract_mem_intro (pod : Pod) (hnd : podNamesNodup pod) (c i : String)
    (hm : (c, i) ∈ extractImageIDsToContainersFromPod pod) :
    (c, i) ∈ ExtractContainersToImageIDsFromPod pod := by
  rw [extract_eq_getNew_nil]
  exact getNew_mem_intro [] pod hnd c i hm (by simp [iwLoad, alookup])

/-! ## Projection corollaries of the fold characterizations -/

theorem addInstanceIDs_wc (st : StoreState) (ids : List String) :
    (addInstanceIDs st ids).wlidsToContainerToImageIDMap =
      st.wlidsToContainerToImageIDMap := by
  rw [addInstanceIDs_fields]

theorem addInstanceIDs_iw (st : StoreState) (ids : List String) :
    (addInstanceIDs st ids).iwMap = st.iwMap := by
  rw [addInstanceIDs_fields]

theorem addInstanceIDs_inst (st : StoreState) (ids : List String) :
    (addInstanceIDs st ids).hashedInstanceIDs = instFold st.hashedInstanceIDs ids := by
  rw [addInstanceIDs_fields]

theorem regNew_wc (st : StoreState) (w : String) (prs : List (String × String)) :
    (registerNewPairs st w prs).wlidsToContainerToImageIDMap =
      wcFold st.wlidsToContainerToImageIDMap w prs := by
  rw [registerNewPairs_fields]

theorem regNew_iw (st : StoreState) (w : String) (prs : List (String × String)) :
    (registerNewPairs st w prs).iwMap = iwRegFold st.iwMap w prs := by
  rw [registerNewPairs_fields]

theorem regNew_inst (st : StoreState) (w : String) (prs : List (String × String)) :
    (registerNewPairs st w prs).hashedInstanceIDs = st.hashedInstanceIDs := by
  rw [registerNewPairs_fields]

theorem regWc_wc (st : StoreState) (w : String) (prs : List (String × String)) :
    (registerWcPairs st w prs).wlidsToContainerToImageIDMap =
      wcFold st.wlidsToContainerToImageIDMap w prs := by
  rw [registerWcPairs_fields]

theorem regWc_iw (st : StoreState) (w : String) (prs : List (String × String)) :
    (registerWcPairs st w prs).iwMap = st.iwMap := by
  rw [registerWcPairs_fields]

theorem regWc_inst (st : StoreState) (w : String) (prs : List (String × String)) :
    (registerWcPairs st w prs).hashedInstanceIDs = st.hashedInstanceIDs := by
  rw [registerWcPairs_fields]

/-! ## Unfolding the pod pipeline step -/

theorem lookupWC_eq (st : StoreState) (w c : String) :
    lookupWC st w c = wcLookupMap st.wlidsToContainerToImageIDMap w c := rfl

theorem isWlidInMap_eq (st : StoreState) (w : String) :
    isWlidInMap st w = (alookup st.wlidsToContainerToImageIDMap w).isSome := rfl

theorem handleStep_unfold (st : StoreState) (e : PodEvent) (pod : Pod) (wlid : String)
    (hpod : getPodFromEventIfRunning e = some pod) (hpar : e.parent = some wlid) :
    handlePodWatcherStep st e =
      (if getNewContainerToImageIDsFromPod st.iwMap pod ≠ [] then
        match e.instIDs with
        | none =>
            ⟨registerNewPairs st wlid (getNewContainerToImageIDsFromPod st.iwMap pod),
              some (getImageScanCommand wlid (getNewContainerToImageIDsFromPod st.iwMap pod)),
              []⟩
        | some ids =>
            ⟨addInstanceIDs
                (registerNewPairs st wlid (getNewContainerToImageIDsFromPod st.iwMap pod)) ids,
              some (getImageScanCommand wlid (getNewContainerToImageIDsFromPod st.iwMap pod)),
              [getImageScanCommand wlid (getNewContainerToImageIDsFromPod st.iwMap pod)]⟩
      else if isWlidInMap st wlid then ⟨st, none, []⟩
      else
        match e.instIDs with
        | none =>
            ⟨registerWcPairs st wlid (ExtractContainersToImageIDsFromPod pod),
              some (getImageScanCommand wlid (ExtractContainersToImageIDsFromPod pod)), []⟩
        | some ids =>
            ⟨addInstanceIDs
                (registerWcPairs st wlid (ExtractContainersToImageIDsFromPod pod)) ids,
              some (getImageScanCommand wlid (ExtractContainersToImageIDsFromPod pod)),
              [getImageScanCommand wlid (ExtractContainersToImageIDsFromPod pod)]⟩) := by
  unfold handlePodWatcherStep
  rw [hpod, hpar]

/-- C1: for a pod Modified event that passes the filter and resolves to a
wlid, the decision step registers and produces commands exactly as the spec
describes: new image hashes are registered pairwise and covered by exactly
one command; a known workload with no new images changes nothing and
produces nothing; an unknown workload with no new images registers its full
container map and produces one command covering it. -/
theorem c1_pod_decision_step (st : StoreState) (e : PodEvent) (pod : Pod) (wlid : String)
    (hpod : getPodFromEventIfRunning e = some pod) (hpar : e.parent = some wlid) :
    (getNewContainerToImageIDsFromPod st.iwMap pod ≠ [] →
      (handlePodWatcherStep st e).produced =
        some (getImageScanCommand wlid (getNewContainerToImageIDsFromPod st.iwMap pod)) ∧
      ∀ c img, (c, img) ∈ getNewContainerToImageIDsFromPod st.iwMap pod →
        wlid ∈ (iwLoad (handlePodWatcherStep st e).state.iwMap (extractImageHash img)).getD []
          ∧ lookupWC (handlePodWatcherStep st e).state wlid c = some img) ∧
    (getNewContainerToImageIDsFromPod st.iwMap pod = [] → isWlidInMap st wlid = true →
      (handlePodWatcherStep st e).state = st ∧ (handlePodWatcherStep st e).produced = none) ∧
    (getNewContainerToImageIDsFromPod st.iwMap pod = [] → isWlidInMap st wlid = false →
      (handlePodWatcherStep st e).produced =
        some (getImageScanCommand wlid (ExtractContainersToImageIDsFromPod pod)) ∧
      ∀ c img, (c, img) ∈ ExtractContainersToImageIDsFromPod pod →
        lookupWC (handlePodWatcherStep st e).state wlid c = some img) := by
  rw [handleStep_unfold st e pod wlid hpod hpar]
  refine ⟨?_, ?_, ?_⟩
  · intro hne
    rw [if_pos hne]
    cases he : e.instIDs with
    | none =>
      refine ⟨rfl, ?_⟩
      intro c img hmem
      constructor
      · show wlid ∈ (iwLoad (registerNewPairs st wlid _).iwMap (extractImageHash img)).getD []
        rw [registerNewPairs_fields]
        exact iwRegFold_mem_set wlid c img _ st.iwMap hmem
      · show lookupWC (registerNewPairs st wlid _) wlid c = some img
        rw [registerNewPairs_fields, lookupWC_eq]
        exact wcFold_lookup_set_nodup wlid c img _ _ (getNew_keys_nodup _ _) hmem
    | some ids =>
      refine ⟨rfl, ?_⟩
      intro c img hmem
      constructor
      · show wlid ∈ (iwLoad (addInstanceIDs (registerNewPairs st wlid _) ids).iwMap
            (extractImageHash img)).getD []
        rw [addInstanceIDs_fields]
        show wlid ∈ (iwLoad (registerNewPairs st wlid _).iwMap (extractImageHash img)).getD []
        rw [registerNewPairs_fields]
        exact iwRegFold_mem_set wlid c img _ st.iwMap hmem
      · show lookupWC (addInstanceIDs (registerNewPairs st wlid _) ids) wlid c = some img
        rw [addInstanceIDs_fields]
        show wcLookupMap (registerNewPairs st wlid _).wlidsToContainerToImageIDMap wlid c
          = some img
        rw [registerNewPairs_fields]
        exact wcFold_lookup_set_nodup wlid c img _ _ (getNew_keys_nodup _ _) hmem
  · intro hnil hmap
    rw [if_neg (by simpa using hnil), if_pos hmap]
    exact ⟨rfl, rfl⟩
  · intro hnil hmap
    rw [if_neg (by simpa using hnil), if_neg (by simp [hmap])]
    cases he : e.instIDs with
    | none =>
      refine ⟨rfl, ?_⟩
      intro c img hmem
      show lookupWC (registerWcPairs st wlid _) wlid c = some img
      rw [registerWcPairs_fields, lookupWC_eq]
      exact wcFold_lookup_set_nodup wlid c img _ _ (extract_keys_nodup _) hmem
    | some ids =>
      refine ⟨rfl, ?_⟩
      intro c img hmem
      show lookupWC (addInstanceIDs (registerWcPairs st wlid _) ids) wlid c = some img
      rw [addInstanceIDs_fields]
      show wcLookupMap (registerWcPairs st wlid _).wlidsToContainerToImageIDMap wlid c = some img
      rw [registerWcPairs_fields]
      exact wcFold_lookup_set_nodup wlid c img _ _ (extract_keys_nodup _) hmem

/-- Concrete pod for the C1 witness (the spec scenario: deployment-owned
pod with container app running image repo/img at sha256 aaa). -/
def c1pod : Pod := ⟨"P1", "N", "Running", [⟨"app", "repo/img@sha256:aaa", true⟩]⟩

/-- Concrete event for the C1 witness. -/
def c1event : PodEvent :=
  ⟨EventType.modified, some c1pod, true, some "wlid://cluster-c/namespace-N/deployment-D",
    some ["iid1"]⟩

theorem c1_witness :
    getPodFromEventIfRunning c1event = some c1pod ∧
    c1event.parent = some "wlid://cluster-c/namespace-N/deployment-D" ∧
    getNewContainerToImageIDsFromPod emptyStore.iwMap c1pod =
      [("app", "repo/img@sha256:aaa")] ∧
    (handlePodWatcherStep emptyStore c1event).produced =
      some (getImageScanCommand "wlid://cluster-c/namespace-N/deployment-D"
        (getNewContainerToImageIDsFromPod emptyStore.iwMap c1pod)) ∧
    "wlid://cluster-c/namespace-N/deployment-D" ∈
      (iwLoad (handlePodWatcherStep emptyStore c1event).state.iwMap "aaa").getD [] ∧
    lookupWC (handlePodWatcherStep emptyStore c1event).state
      "wlid://cluster-c/namespace-N/deployment-D" "app" = some "repo/img@sha256:aaa" := by
  have h := c1_pod_decision_step emptyStore c1event c1pod
    "wlid://cluster-c/namespace-N/deployment-D" (by decide) rfl
  have hA := h.1 (by decide)
  have hpair := hA.2 "app" "repo/img@sha256:aaa" (by decide)
  exact ⟨by decide, rfl, by decide, hA.1, hpair.1, hpair.2⟩

/-! ## C2: identity recording and command emission -/

/-- Concrete store for the C2 counterexample: workload w1 with container
app and image i is already registered. -/
def c2store : StoreState := ⟨[("i", ["w1"])], [("w1", [("app", "i")])], []⟩

/-- Concrete pod for the C2 counterexample. -/
def c2pod : Pod := ⟨"P2", "N", "Running", [⟨"app", "i", true⟩]⟩

/-- Concrete event for the C2 counterexample. -/
def c2event : PodEvent := ⟨EventType.modified, some c2pod, true, some "w1", some ["iid2"]⟩

/-- C2 counterexample: a pod Modified event that passes the filter and
resolves, in the duplicate-observation case (no new images, workload
already indexed), leaves the instance-id set unchanged: the generated
instance id iid2 is NOT recorded, contradicting the claim that identity
recording still happens in the duplicate case (the source continues before
the instance-id loop). -/
theorem c2_counterexample :
    getPodFromEventIfRunning c2event = some c2pod ∧
    c2event.parent = some "w1" ∧
    c2event.instIDs = some ["iid2"] ∧
    getNewContainerToImageIDsFromPod c2store.iwMap c2pod = [] ∧
    isWlidInMap c2store "w1" = true ∧
    (handlePodWatcherStep c2store c2event).state = c2store ∧
    ¬ ("iid2" ∈ (handlePodWatcherStep c2store c2event).state.hashedInstanceIDs) := by
  refine ⟨by decide, rfl, rfl, by decide, by decide, by decide, by decide⟩

/-- C2 (amended): for a pod Modified event that passes the filter and
resolves, the duplicate-observation case leaves the store unchanged and
emits nothing (identity recording does NOT happen there); in the two
command-producing branches, when instance-id generation succeeds the
generated ids are recorded and the produced command is emitted, and when it
fails nothing is emitted, no instance identifiers are recorded, and the
state is exactly the result of the branch's index registrations (the
registrations performed before the generation attempt are kept). -/
theorem c2_identity_recording (st : StoreState) (e : PodEvent) (pod : Pod) (wlid : String)
    (hpod : getPodFromEventIfRunning e = some pod) (hpar : e.parent = some wlid) :
    (getNewContainerToImageIDsFromPod st.iwMap pod = [] → isWlidInMap st wlid = true →
      (handlePodWatcherStep st e).state = st ∧ (handlePodWatcherStep st e).emitted = []) ∧
    (¬ (getNewContainerToImageIDsFromPod st.iwMap pod = [] ∧ isWlidInMap st wlid = true) →
      (e.instIDs = none →
        (handlePodWatcherStep st e).emitted = [] ∧
        (handlePodWatcherStep st e).state.hashedInstanceIDs = st.hashedInstanceIDs ∧
        (getNewContainerToImageIDsFromPod st.iwMap pod ≠ [] →
          (handlePodWatcherStep st e).state =
            registerNewPairs st wlid (getNewContainerToImageIDsFromPod st.iwMap pod)) ∧
        (getNewContainerToImageIDsFromPod st.iwMap pod = [] →
          (handlePodWatcherStep st e).state =
            registerWcPairs st wlid (ExtractContainersToImageIDsFromPod pod))) ∧
      (∀ ids, e.instIDs = some ids →
        (∀ x ∈ ids, x ∈ (handlePodWatcherStep st e).state.hashedInstanceIDs) ∧
        (∀ cmd, (handlePodWatcherStep st e).produced = some cmd →
          (handlePodWatcherStep st e).emitted = [cmd]))) := by
  rw [handleStep_unfold st e pod wlid hpod hpar]
  constructor
  · intro hnil hmap
    rw [if_neg (by simpa using hnil), if_pos hmap]
    exact ⟨rfl, rfl⟩
  · intro hcond
    by_cases hne : getNewContainerToImageIDsFromPod st.iwMap pod = []
    · have hmap : isWlidInMap st wlid = false := by
        cases hmapv : isWlidInMap st wlid with
        | false => rfl
        | true => exact absurd ⟨hne, hmapv⟩ hcond
      rw [if_neg (by simpa using hne), if_neg (by simp [hmap])]
      cases he : e.instIDs with
      | none =>
        refine ⟨?_, ?_⟩
        · intro _
          refine ⟨rfl, ?_, ?_, ?_⟩
          · show (registerWcPairs st wlid
                (ExtractContainersToImageIDsFromPod pod)).hashedInstanceIDs =
              st.hashedInstanceIDs
            exact regWc_inst st wlid _
          · intro hne2
            exact absurd hne hne2
          · intro _
            rfl
        · intro ids hids
          exact absurd hids (by simp)
      | some ids =>
        refine ⟨fun hn => absurd hn (by simp), ?_⟩
        intro ids2 hids
        have hids2 : ids2 = ids := by
          have := hids.symm.trans rfl
          injection this
        subst hids2
        constructor
        · intro x hx
          show x ∈ (addInstanceIDs (registerWcPairs st wlid _) ids2).hashedInstanceIDs
          rw [addInstanceIDs_fields]
          exact (mem_instFold ids2 _ x).mpr (Or.inr hx)
        · intro cmd hcmd
          have : cmd = getImageScanCommand wlid (ExtractContainersToImageIDsFromPod pod) := by
            injection hcmd.symm
          rw [this]
    · rw [if_pos hne]
      cases he : e.instIDs with
      | none =>
        refine ⟨?_, ?_⟩
        · intro _
          refine ⟨rfl, ?_, ?_, ?_⟩
          · show (registerNewPairs st wlid
                (getNewContainerToImageIDsFromPod st.iwMap pod)).hashedInstanceIDs =
              st.hashedInstanceIDs
            exact regNew_inst st wlid _
          · intro _
            rfl
          · intro hnil
            exact absurd hnil hne
        · intro ids hids
          exact absurd hids (by simp)
      | some ids =>
        refine ⟨fun hn => absurd hn (by simp), ?_⟩
        intro ids2 hids
        have hids2 : ids2 = ids := by injection hids with hh; exact hh.symm
        subst hids2
        constructor
        · intro x hx
          show x ∈ (addInstanceIDs (registerNewPairs st wlid _) ids2).hashedInstanceIDs
          rw [addInstanceIDs_fields]
          exact (mem_instFold ids2 _ x).mpr (Or.inr hx)
        · intro cmd hcmd
          have : cmd =
              getImageScanCommand wlid (getNewContainerToImageIDsFromPod st.iwMap pod) := by
            injection hcmd.symm
          rw [this]

/-- Concrete pod for the C2 witness: Running pod with no containers, new
workload branch with an empty container set. -/
def c2wpod : Pod := ⟨"P3", "N", "Running", []⟩

/-- Concrete event for the C2 witness. -/
def c2wevent : PodEvent := ⟨EventType.modified, some c2wpod, true, some "w2", some ["iid3"]⟩

theorem c2_witness :
    getPodFromEventIfRunning c2wevent = some c2wpod ∧
    c2wevent.parent = some "w2" ∧
    ¬ (getNewContainerToImageIDsFromPod emptyStore.iwMap c2wpod = [] ∧
        isWlidInMap emptyStore "w2" = true) ∧
    "iid3" ∈ (handlePodWatcherStep emptyStore c2wevent).state.hashedInstanceIDs ∧
    (handlePodWatcherStep emptyStore c2wevent).emitted = [getImageScanCommand "w2" []] := by
  have h := c2_identity_recording emptyStore c2wevent c2wpod "w2" (by decide) rfl
  have hB := (h.2 (by decide)).2 ["iid3"] rfl
  refine ⟨by decide, rfl, by decide, hB.1 "iid3" (by decide), ?_⟩
  exact hB.2 (getImageScanCommand "w2" []) (by decide)

/-! ## C3: orphan garbage collection in the SBOM and vulnerability-manifest
handlers -/

/-- C3: in both the vulnerability-manifest handler and the SBOM handler,
an Added or Modified artifact whose correlating key (instance id for a
relevancy-tracked manifest, image hash otherwise; image hash for an SBOM)
is absent from the current index is deleted from storage with no command
emitted; a present key is not deleted; Deleted events delete nothing and
emit nothing in either handler. -/
theorem c3_orphan_gc (st : StoreState) (e1 : VMEvent) (e2 : SBOMEvent) :
    (e1.type = EventType.deleted →
      (HandleVulnerabilityManifestEvent st e1).deletes = [] ∧
      (HandleVulnerabilityManifestEvent st e1).commands = []) ∧
    (∀ m, e1.obj = some m → e1.type ≠ EventType.deleted →
      (vmHasObject st m = false →
        (HandleVulnerabilityManifestEvent st e1).deletes = [(m.nspace, m.name)] ∧
        (HandleVulnerabilityManifestEvent st e1).commands = []) ∧
      (vmHasObject st m = true →
        (HandleVulnerabilityManifestEvent st e1).deletes = [])) ∧
    (e2.type = EventType.deleted →
      (HandleSBOMEvent st e2).deletes = [] ∧ (HandleSBOMEvent st e2).commands = []) ∧
    (∀ m, e2.obj = some m → e2.type ≠ EventType.deleted →
      ((iwLoad st.iwMap m.name).isSome = false →
        (HandleSBOMEvent st e2).deletes = [(m.nspace, m.name)] ∧
        (HandleSBOMEvent st e2).commands = []) ∧
      ((iwLoad st.iwMap m.name).isSome = true →
        (HandleSBOMEvent st e2).deletes = [])) := by
  refine ⟨?_, ?_, ?_, ?_⟩
  · intro hdel
    simp [HandleVulnerabilityManifestEvent, hdel]
  · intro m hm hdel
    constructor
    · intro hv
      simp [HandleVulnerabilityManifestEvent, hdel, hm, hv]
    · intro hv
      simp [HandleVulnerabilityManifestEvent, hdel, hm, hv]
  · intro hdel
    cases ho : e2.obj with
    | none => simp [HandleSBOMEvent, ho]
    | some m => simp [HandleSBOMEvent, ho, hdel]
  · intro m hm hdel
    constructor
    · intro hv
      simp [HandleSBOMEvent, hm, hdel, hv]
    · intro hv
      simp [HandleSBOMEvent, hm, hdel, hv]

/-- Concrete state for the C3 witness: only image hash h0 is known. -/
def c3store : StoreState := ⟨[("h0", ["w0"])], [], ["inst0"]⟩

/-- Concrete vulnerability-manifest event for the C3 witness: a
non-relevancy manifest named h1, absent from the image-hash index. -/
def c3vmevent : VMEvent := ⟨EventType.added, some ⟨"h1", "ns1", false⟩⟩

/-- Concrete SBOM event for the C3 witness: an SBOM named h2, absent from
the image-hash index. -/
def c3sbomevent : SBOMEvent := ⟨EventType.modified, some ⟨"h2", "ns2"⟩, false⟩

theorem c3_witness :
    c3vmevent.obj = some ⟨"h1", "ns1", false⟩ ∧
    c3vmevent.type ≠ EventType.deleted ∧
    vmHasObject c3store ⟨"h1", "ns1", false⟩ = false ∧
    (HandleVulnerabilityManifestEvent c3store c3vmevent).deletes = [("ns1", "h1")] ∧
    (HandleVulnerabilityManifestEvent c3store c3vmevent).commands = [] ∧
    c3sbomevent.obj = some ⟨"h2", "ns2"⟩ ∧
    c3sbomevent.type ≠ EventType.deleted ∧
    (iwLoad c3store.iwMap "h2").isSome = false ∧
    (HandleSBOMEvent c3store c3sbomevent).deletes = [("ns2", "h2")] ∧
    (HandleSBOMEvent c3store c3sbomevent).commands = [] := by
  have h := c3_orphan_gc c3store c3vmevent c3sbomevent
  have hvm := (h.2.1 ⟨"h1", "ns1", false⟩ rfl (by decide)).1 (by decide)
  have hsb := (h.2.2.2 ⟨"h2", "ns2"⟩ rfl (by decide)).1 (by decide)
  exact ⟨rfl, by decide, by decide, hvm.1, hvm.2, rfl, by decide, by decide, hsb.1, hsb.2⟩

/-! ## C5: cleanup atomicity -/

/-- C5: a cleanup cycle whose listing fails leaves the whole store (all
three structures) unchanged; a cycle with a successful listing resets all
three structures together and repopulates them from the listing alone (the
result does not depend on the prior state, so the image-hash index and the
workload container index are never reset independently); no ScanCommand is
ever emitted by a cleanup cycle. -/
theorem c5_cleanup_atomicity :
    (∀ st, cleanUp st none = (st, [])) ∧
    (∀ st ps, (cleanUp st (some ps)).1 = buildIDs emptyStore ps) ∧
    (∀ st1 st2 ps, (cleanUp st1 (some ps)).1 = (cleanUp st2 (some ps)).1) ∧
    (∀ st listing, (cleanUp st listing).2 = []) := by
  refine ⟨fun st => rfl, fun st ps => rfl, fun st1 st2 ps => rfl, fun st listing => ?_⟩
  cases listing <;> rfl

/-! ## C6: the filtered-SBOM handler -/

/-- Concrete event for the C6 counterexample: a Deleted event whose payload
is not a filtered SBOM. -/
def c6event : FilteredSBOMEvent := ⟨EventType.deleted, none⟩

/-- C6 counterexample: the filtered-SBOM handler casts the payload before
checking the event type, so a Deleted event with an unsupported payload
produces an error signal, contradicting the claim that Deleted events are
ignored with no error signal. -/
theorem c6_counterexample :
    c6event.type = EventType.deleted ∧
    (HandleSBOMFilteredEvent emptyStore c6event).errors = [WatcherErr.unsupportedObject] :=
  ⟨rfl, rfl⟩

/-- C6 (amended): in the filtered-SBOM handler, an event of any type whose
payload is not a filtered SBOM produces an error signal and nothing else;
for well-typed payloads, Deleted events are ignored entirely; on
Added/Modified, a manifest name absent from the instance-id set deletes the
artifact and stops; a present name with a missing workload-identifier
annotation produces an error signal and nothing else; otherwise exactly one
ScanCommand is emitted, built from the workload's known container map. -/
theorem c6_filtered_sbom (st : StoreState) (e : FilteredSBOMEvent) :
    (e.obj = none →
      HandleSBOMFilteredEvent st e = ⟨[], [WatcherErr.unsupportedObject], []⟩) ∧
    (∀ m, e.obj = some m →
      (e.type = EventType.deleted → HandleSBOMFilteredEvent st e = ⟨[], [], []⟩) ∧
      (e.type ≠ EventType.deleted →
        (m.name ∉ st.hashedInstanceIDs →
          HandleSBOMFilteredEvent st e = ⟨[(m.nspace, m.name)], [], []⟩) ∧
        (m.name ∈ st.hashedInstanceIDs →
          (m.wlidAnnot = none →
            HandleSBOMFilteredEvent st e = ⟨[], [WatcherErr.missingWLIDAnnot], []⟩) ∧
          (∀ w, m.wlidAnnot = some w →
            HandleSBOMFilteredEvent st e =
              ⟨[], [], [getImageScanCommand w (GetContainerToImageIDForWlid st w)]⟩)))) := by
  refine ⟨?_, ?_⟩
  · intro ho
    simp [HandleSBOMFilteredEvent, ho]
  · intro m hm
    refine ⟨?_, ?_⟩
    · intro hdel
      simp [HandleSBOMFilteredEvent, hm, hdel]
    · intro hdel
      refine ⟨?_, ?_⟩
      · intro hmem
        simp [HandleSBOMFilteredEvent, hm, hdel, hmem]
      · intro hmem
        refine ⟨?_, ?_⟩
        · intro hw
          simp [HandleSBOMFilteredEvent, hm, hdel, hmem, hw]
        · intro w hw
          simp [HandleSBOMFilteredEvent, hm, hdel, hmem, hw]

/-- Concrete store for the C6 witness: instance id f1 is live and workload
w3 maps container c3 to image i3. -/
def c6wstore : StoreState := ⟨[], [("w3", [("c3", "i3")])], ["f1"]⟩

/-- Concrete event for the C6 witness. -/
def c6wevent : FilteredSBOMEvent := ⟨EventType.added, some ⟨"f1", "ns3", some "w3"⟩⟩

theorem c6_witness :
    c6wevent.obj = some ⟨"f1", "ns3", some "w3"⟩ ∧
    c6wevent.type ≠ EventType.deleted ∧
    "f1" ∈ c6wstore.hashedInstanceIDs ∧
    HandleSBOMFilteredEvent c6wstore c6wevent =
      ⟨[], [], [getImageScanCommand "w3" (GetContainerToImageIDForWlid c6wstore "w3")]⟩ := by
  have h := c6_filtered_sbom c6wstore c6wevent
  have hc := (((h.2 ⟨"f1", "ns3", some "w3"⟩ rfl).2 (by decide)).2 (by decide)).2 "w3" rfl
  exact ⟨rfl, by decide, by decide, hc⟩

/-! ## buildIDs lemmas -/

theorem hasRunning_of_mem_extract (pod : Pod) (c i : String)
    (h : (c, i) ∈ extractImageIDsToContainersFromPod pod) :
    hasOneContainerRunning pod = true := by
  unfold extractImageIDsToContainersFromPod at h
  unfold hasOneContainerRunning
  rcases List.mem_map.mp h with ⟨cs, hcs, _⟩
  exact List.any_eq_true.mpr ⟨cs, List.mem_of_mem_filter hcs, List.of_mem_filter hcs⟩

theorem buildIDs_cons (st : StoreState) (hd : ListedPod) (t : List ListedPod) :
    buildIDs st (hd :: t) = buildIDs (buildIDsStep st hd) t := by
  simp [buildIDs]

theorem buildIDsStep_qual (st : StoreState) (lp : ListedPod) (w : String) (ids : List String)
    (hph : lp.pod.phase = podRunning) (hrun : hasOneContainerRunning lp.pod = true)
    (hpar : lp.parent = some w) (hids : lp.instIDs = some ids) :
    buildIDsStep st lp =
      registerNewPairs (addInstanceIDs st ids) w
        (extractImageIDsToContainersFromPod lp.pod) := by
  unfold buildIDsStep
  rw [if_neg (by simp [hph]), if_neg (by simp [hrun]), hpar, hids]

theorem buildIDsStep_cases (st : StoreState) (lp : ListedPod) :
    buildIDsStep st lp = st ∨
    ∃ w ids, lp.parent = some w ∧ lp.instIDs = some ids ∧ lp.pod.phase = podRunning ∧
      buildIDsStep st lp =
        registerNewPairs (addInstanceIDs st ids) w
          (extractImageIDsToContainersFromPod lp.pod) := by
  unfold buildIDsStep
  by_cases h1 : lp.pod.phase ≠ podRunning
  · rw [if_pos h1]; exact Or.inl rfl
  · rw [if_neg h1]
    by_cases h2 : ¬ hasOneContainerRunning lp.pod
    · rw [if_pos h2]; exact Or.inl rfl
    · rw [if_neg h2]
      cases hp : lp.parent with
      | none => exact Or.inl rfl
      | some w =>
        cases hi : lp.instIDs with
        | none => exact Or.inl rfl
        | some ids => exact Or.inr ⟨w, ids, rfl, rfl, not_not.mp h1, rfl⟩

theorem buildIDs_lookup_preserve (ps : List ListedPod) :
    ∀ st w c img, lookupWC st w c = some img →
      (∀ lp ∈ ps, ∀ w2 i, lp.parent = some w2 → w2 = w →
        (c, i) ∈ extractImageIDsToContainersFromPod lp.pod → i = img) →
      lookupWC (buildIDs st ps) w c = some img := by
  induction ps with
  | nil => intro st w c img h _; exact h
  | cons hd t ih =>
    intro st w c img h hall
    rw [buildIDs_cons]
    refine ih _ w c img ?_ (fun lp hlp => hall lp (List.mem_cons_of_mem _ hlp))
    rcases buildIDsStep_cases st hd with hcase | ⟨w2, ids, hp, _, _, hcase⟩
    · rw [hcase]; exact h
    · rw [hcase, lookupWC_eq, regNew_wc]
      by_cases hw : w2 = w
      · subst hw
        refine wcFold_lookup_agree w2 c img _ _ ?_ ?_
        · rw [addInstanceIDs_wc]; exact h
        · intro i hi2
          exact hall hd (List.mem_cons_self _ _) w2 i hp rfl hi2
      · rw [wcFold_lookup_other w2 w c _ (fun hh => hw hh.symm)]
        rw [addInstanceIDs_wc]
        exact h

theorem buildIDs_lookup_set (ps : List ListedPod)
    (hagree : ∀ lp1 ∈ ps, ∀ lp2 ∈ ps, ∀ w c i1 i2,
      lp1.parent = some w → lp2.parent = some w →
      (c, i1) ∈ extractImageIDsToContainersFromPod lp1.pod →
      (c, i2) ∈ extractImageIDsToContainersFromPod lp2.pod → i1 = i2) :
    ∀ st, ∀ lp ∈ ps, ∀ w ids c img, lp.pod.phase = podRunning → lp.parent = some w →
      lp.instIDs = some ids → (c, img) ∈ extractImageIDsToContainersFromPod lp.pod →
      lookupWC (buildIDs st ps) w c = some img := by
  induction ps with
  | nil => intro st lp hlp; simp at hlp
  | cons hd t ih =>
    intro st lp hlp w ids c img hph hpar hids hmem
    rw [buildIDs_cons]
    rcases List.mem_cons.mp hlp with heq | hmemt
    · subst heq
      have hrun := hasRunning_of_mem_extract _ c img hmem
      rw [buildIDsStep_qual st lp w ids hph hrun hpar hids]
      refine buildIDs_lookup_preserve t _ w c img ?_ ?_
      · rw [lookupWC_eq, regNew_wc]
        exact wcFold_lookup_set_agree w c img _ _ hmem
          (fun i hi => hagree lp (List.mem_cons_self _ _) lp (List.mem_cons_self _ _)
            w c i img hpar hpar hi hmem)
      · intro lp2 hlp2 w2 i hp2 hww hi2
        subst hww
        exact hagree lp2 (List.mem_cons_of_mem _ hlp2) lp (List.mem_cons_self _ _)
          w2 c i img hp2 hpar hi2 hmem
    · exact ih
        (fun lp1 h1 lp2 h2 => hagree lp1 (List.mem_cons_of_mem _ h1)
          lp2 (List.mem_cons_of_mem _ h2))
        _ lp hmemt w ids c img hph hpar hids hmem

theorem buildIDs_key_elim (ps : List ListedPod) :
    ∀ st w, isWlidInMap (buildIDs st ps) w = true →
      isWlidInMap st w = true ∨
        ∃ lp, lp ∈ ps ∧ lp.pod.phase = podRunning ∧ lp.parent = some w := by
  induction ps with
  | nil => intro st w h; exact Or.inl h
  | cons hd t ih =>
    intro st w h
    rw [buildIDs_cons] at h
    rcases ih _ w h with h' | ⟨lp, hlp, hph, hp⟩
    · rcases buildIDsStep_cases st hd with hcase | ⟨w2, ids, hp, hi, hph, hcase⟩
      · rw [hcase] at h'; exact Or.inl h'
      · rw [hcase, isWlidInMap_eq, regNew_wc] at h'
        rcases wcFold_key_isSome_elim w2 w _ _ h' with hww | hbefore
        · exact Or.inr ⟨hd, List.mem_cons_self _ _, hph, hww ▸ hp⟩
        · rw [addInstanceIDs_wc] at hbefore
          exact Or.inl hbefore
    · exact Or.inr ⟨lp, List.mem_cons_of_mem _ hlp, hph, hp⟩

theorem buildIDs_key_mono (ps : List ListedPod) :
    ∀ st w, isWlidInMap st w = true → isWlidInMap (buildIDs st ps) w = true := by
  induction ps with
  | nil => intro st w h; exact h
  | cons hd t ih =>
    intro st w h
    rw [buildIDs_cons]
    refine ih _ w ?_
    rcases buildIDsStep_cases st hd with hcase | ⟨w2, ids, _, _, _, hcase⟩
    · rw [hcase]; exact h
    · rw [hcase, isWlidInMap_eq, regNew_wc]
      refine wcFold_key_isSome_mono w2 w _ _ ?_
      rw [addInstanceIDs_wc]
      exact h

theorem buildIDs_key_set (ps : List ListedPod) :
    ∀ st, ∀ lp ∈ ps, ∀ w ids c img, lp.pod.phase = podRunning → lp.parent = some w →
      lp.instIDs = some ids → (c, img) ∈ extractImageIDsToContainersFromPod lp.pod →
      isWlidInMap (buildIDs st ps) w = true := by
  induction ps with
  | nil => intro st lp hlp; simp at hlp
  | cons hd t ih =>
    intro st lp hlp w ids c img hph hpar hids hmem
    rw [buildIDs_cons]
    rcases List.mem_cons.mp hlp with heq | hmemt
    · subst heq
      have hrun := hasRunning_of_mem_extract _ c img hmem
      rw [buildIDsStep_qual st lp w ids hph hrun hpar hids]
      refine buildIDs_key_mono t _ w ?_
      rw [isWlidInMap_eq, regNew_wc]
      refine wcFold_key_isSome_set w _ _ ?_
      intro hnil
      rw [hnil] at hmem
      simp at hmem
    · exact ih _ lp hmemt w ids c img hph hpar hids hmem

/-! ## C4: the post-cleanup invariant -/

/-- Listing for the C4 counterexample: a single Running pod whose
instance-id generation fails. -/
def c4listing : List ListedPod :=
  [⟨⟨"P4", "N", "Running", [⟨"app", "i4", true⟩]⟩, some "w4", none⟩]

/-- C4 counterexample: buildIDs skips a Running pod whose instance-id
generation fails (the source continues before the registration loops), so
after a cleanup cycle triggered by this listing the pod's container-image
pair is absent from the workload container index, contradicting the
unconditional post-cleanup invariant. -/
theorem c4_counterexample :
    (⟨⟨"P4", "N", "Running", [⟨"app", "i4", true⟩]⟩, some "w4", none⟩ : ListedPod) ∈
      c4listing ∧
    (⟨"P4", "N", "Running", [⟨"app", "i4", true⟩]⟩ : Pod).phase = podRunning ∧
    ("app", "i4") ∈
      extractImageIDsToContainersFromPod ⟨"P4", "N", "Running", [⟨"app", "i4", true⟩]⟩ ∧
    lookupWC (cleanUp emptyStore (some c4listing)).1 "w4" "app" = none ∧
    isWlidInMap (cleanUp emptyStore (some c4listing)).1 "w4" = false := by
  refine ⟨by decide, rfl, by decide, by decide, by decide⟩

/-- C4 (amended): after a cleanup cycle that ran on a successful listing,
(i) for every Running pod of the listing whose parent resolution and
instance-id derivation succeed, and provided no two pods of the same
resolved workload report different images for the same container name, each
of the pod's (container, imageReference) pairs is present in the workload
container index; and (ii) every workload key of the index is the resolved
parent of some Running pod of the listing. -/
theorem c4_post_cleanup (ps : List ListedPod)
    (hagree : ∀ lp1 ∈ ps, ∀ lp2 ∈ ps, ∀ w c i1 i2,
      lp1.parent = some w → lp2.parent = some w →
      (c, i1) ∈ extractImageIDsToContainersFromPod lp1.pod →
      (c, i2) ∈ extractImageIDsToContainersFromPod lp2.pod → i1 = i2) :
    (∀ st, ∀ lp ∈ ps, ∀ w ids c img, lp.pod.phase = podRunning → lp.parent = some w →
      lp.instIDs = some ids → (c, img) ∈ extractImageIDsToContainersFromPod lp.pod →
      lookupWC (cleanUp st (some ps)).1 w c = some img) ∧
    (∀ st w, isWlidInMap (cleanUp st (some ps)).1 w = true →
      ∃ lp, lp ∈ ps ∧ lp.pod.phase = podRunning ∧ lp.parent = some w) := by
  constructor
  · intro st lp hlp w ids c img hph hpar hids hmem
    exact buildIDs_lookup_set ps hagree emptyStore lp hlp w ids c img hph hpar hids hmem
  · intro st w h
    rcases buildIDs_key_elim ps emptyStore w h with h' | h'
    · exact absurd h' (by simp [isWlidInMap, emptyStore, alookup])
    · exact h'

/-- Pod for the C4 witness. -/
def c4wpod : Pod := ⟨"P5", "N", "Running", [⟨"app", "i5", true⟩]⟩

/-- Listing for the C4 witness: one Running pod, successfully resolved,
with generated instance ids. -/
def c4wlisting : List ListedPod := [⟨c4wpod, some "w5", some ["iid5"]⟩]

theorem c4_witness :
    (⟨c4wpod, some "w5", some ["iid5"]⟩ : ListedPod) ∈ c4wlisting ∧
    c4wpod.phase = podRunning ∧
    ("app", "i5") ∈ extractImageIDsToContainersFromPod c4wpod ∧
    lookupWC (cleanUp emptyStore (some c4wlisting)).1 "w5" "app" = some "i5" := by
  have hagree : ∀ lp1 ∈ c4wlisting, ∀ lp2 ∈ c4wlisting, ∀ w c i1 i2,
      lp1.parent = some w → lp2.parent = some w →
      (c, i1) ∈ extractImageIDsToContainersFromPod lp1.pod →
      (c, i2) ∈ extractImageIDsToContainersFromPod lp2.pod → i1 = i2 := by
    intro lp1 h1 lp2 h2 w c i1 i2 _ _ hm1 hm2
    have e1 : lp1 = ⟨c4wpod, some "w5", some ["iid5"]⟩ := by
      simpa [c4wlisting] using h1
    have e2 : lp2 = ⟨c4wpod, some "w5", some ["iid5"]⟩ := by
      simpa [c4wlisting] using h2
    subst e1; subst e2
    have hv1 : c = "app" ∧ i1 = "i5" := by
      have hmm : (c, i1) ∈ [("app", "i5")] := by
        simpa [c4wpod, extractImageIDsToContainersFromPod] using hm1
      simpa using hmm
    have hv2 : c = "app" ∧ i2 = "i5" := by
      have hmm : (c, i2) ∈ [("app", "i5")] := by
        simpa [c4wpod, extractImageIDsToContainersFromPod] using hm2
      simpa using hmm
    rw [hv1.2, hv2.2]
  have h := c4_post_cleanup c4wlisting hagree
  refine ⟨by decide, rfl, by decide, ?_⟩
  exact h.1 emptyStore ⟨c4wpod, some "w5", some ["iid5"]⟩ (by decide) "w5" ["iid5"]
    "app" "i5" rfl rfl rfl (by decide)

/-! ## C10: the constructor -/

/-- C10: when the initial listing fails, the constructor returns no handler
and starts no routine; on success it returns a handler whose store is built
from the seeded initial state and the listing, whose stored resource
version is the listing's, and the cleanup routine is started; every
successfully-resolved Running pod of the listing has its workload key
present in the built index. -/
theorem c10_constructor (imageIDsToWLIDsMap : List (String × List String))
    (instanceIDs : List String) (listing : Option (List ListedPod × String)) :
    (listing = none →
      NewWatchHandler imageIDsToWLIDsMap instanceIDs listing = (none, [])) ∧
    (∀ ps rv, listing = some (ps, rv) →
      ∃ wh, NewWatchHandler imageIDsToWLIDsMap instanceIDs listing =
          (some wh, [ConstructorAction.startCleanUpAndTriggerScanRoutine]) ∧
        wh.currentPodListResourceVersion = rv ∧
        wh.store =
          buildIDs ⟨NewImageHashWLIDsMapFrom imageIDsToWLIDsMap, [], instanceIDs⟩ ps ∧
        (∀ lp ∈ ps, ∀ w ids c img, lp.pod.phase = podRunning → lp.parent = some w →
          lp.instIDs = some ids → (c, img) ∈ extractImageIDsToContainersFromPod lp.pod →
          isWlidInMap wh.store w = true)) := by
  constructor
  · intro h
    rw [h]
    rfl
  · intro ps rv h
    rw [h]
    refine ⟨⟨buildIDs ⟨NewImageHashWLIDsMapFrom imageIDsToWLIDsMap, [], instanceIDs⟩ ps, rv⟩,
      rfl, rfl, rfl, ?_⟩
    intro lp hlp w ids c img hph hpar hids hmem
    exact buildIDs_key_set ps _ lp hlp w ids c img hph hpar hids hmem

/-- Pod for the C10 witness. -/
def c10pod : Pod := ⟨"P6", "N", "Running", [⟨"app", "i6", true⟩]⟩

/-- Listing for the C10 witness. -/
def c10listing : List ListedPod := [⟨c10pod, some "w6", some ["iid6"]⟩]

theorem c10_witness :
    NewWatchHandler [("h0", ["w0"])] ["i0"] none = (none, []) ∧
    (∃ wh, NewWatchHandler [("h0", ["w0"])] ["i0"] (some (c10listing, "rv7")) =
        (some wh, [ConstructorAction.startCleanUpAndTriggerScanRoutine]) ∧
      wh.currentPodListResourceVersion = "rv7" ∧
      wh.store = buildIDs ⟨NewImageHashWLIDsMapFrom [("h0", ["w0"])], [], ["i0"]⟩ c10listing ∧
      isWlidInMap wh.store "w6" = true) := by
  have h1 := (c10_constructor [("h0", ["w0"])] ["i0"] none).1 rfl
  have h2 := (c10_constructor [("h0", ["w0"])] ["i0"]
    (some (c10listing, "rv7"))).2 c10listing "rv7" rfl
  rcases h2 with ⟨wh, heq, hrv, hst, hkey⟩
  refine ⟨h1, wh, heq, hrv, hst, ?_⟩
  exact hkey ⟨c10pod, some "w6", some ["iid6"]⟩ (by decide) "w6" ["iid6"] "app" "i6"
    rfl rfl rfl (by decide)

/-! ## C8: idempotence of pod event processing -/

theorem handleStep_filtered (st : StoreState) (e : PodEvent)
    (h : getPodFromEventIfRunning e = none) : handlePodWatcherStep st e = ⟨st, none, []⟩ := by
  unfold handlePodWatcherStep
  rw [h]

theorem handleStep_noparent (st : StoreState) (e : PodEvent) (pod : Pod)
    (hpod : getPodFromEventIfRunning e = some pod) (hpar : e.parent = none) :
    handlePodWatcherStep st e = ⟨st, none, []⟩ := by
  unfold handlePodWatcherStep
  rw [hpod, hpar]

theorem getPod_obj (e : PodEvent) (pod : Pod)
    (hpod : getPodFromEventIfRunning e = some pod) : e.obj = some pod := by
  unfold getPodFromEventIfRunning at hpod
  by_cases ht : e.type ≠ EventType.modified
  · simp [ht] at hpod
  · rw [if_neg ht] at hpod
    cases ho : e.obj with
    | none => rw [ho] at hpod; simp at hpod
    | some p =>
      rw [ho] at hpod
      have hpod' : (if p.phase ≠ podRunning then none
          else if e.podStillExists = true then some p else none) = some pod := hpod
      by_cases hp : p.phase ≠ podRunning
      · simp [hp] at hpod'
      · rw [if_neg hp] at hpod'
        by_cases hex : e.podStillExists
        · rw [if_pos hex] at hpod'
          exact hpod'
        · rw [if_neg hex] at hpod'
          simp at hpod'

theorem addInstanceIDs_idem (st : StoreState) (ids : List String) :
    addInstanceIDs (addInstanceIDs st ids) ids = addInstanceIDs st ids := by
  rw [addInstanceIDs_fields ids (addInstanceIDs st ids), addInstanceIDs_iw,
    addInstanceIDs_wc, addInstanceIDs_inst,
    instFold_of_subset ids _ (fun x hx => (mem_instFold ids _ x).mpr (Or.inr hx)),
    addInstanceIDs_fields]

theorem second_run_fixed (st1 : StoreState) (e : PodEvent) (pod : Pod) (wlid : String)
    (hpod : getPodFromEventIfRunning e = some pod) (hpar : e.parent = some wlid)
    (hne2 : getNewContainerToImageIDsFromPod st1.iwMap pod = [])
    (hmap2 : isWlidInMap st1 wlid = true) :
    (handlePodWatcherStep st1 e).state = st1 := by
  rw [handleStep_unfold st1 e pod wlid hpod hpar]
  rw [if_neg (by simpa using hne2), if_pos hmap2]

theorem c8_branchA_iw (st : StoreState) (pod : Pod) (wlid : String)
    (hnd : podNamesNodup pod) :
    getNewContainerToImageIDsFromPod
      (iwRegFold st.iwMap wlid (getNewContainerToImageIDsFromPod st.iwMap pod)) pod = [] := by
  apply getNew_nil
  intro ci hci
  obtain ⟨cc, ii⟩ := ci
  by_cases hs : (iwLoad st.iwMap (extractImageHash ii)).isSome = true
  · exact iwRegFold_isSome_mono wlid _ _ st.iwMap hs
  · have hnone : (iwLoad st.iwMap (extractImageHash ii)).isNone = true := by
      cases hv : iwLoad st.iwMap (extractImageHash ii) with
      | none => rfl
      | some v => rw [hv] at hs; simp at hs
    have hmem : (cc, ii) ∈ getNewContainerToImageIDsFromPod st.iwMap pod :=
      getNew_mem_intro st.iwMap pod hnd cc ii hci hnone
    exact iwRegFold_isSome_set wlid cc ii _ st.iwMap hmem

/-- C8: processing the same pod Modified event twice in succession yields
Correlation Store state identical to processing it once.  The hypothesis
records the Kubernetes API invariant that container names within one pod
are unique. -/
theorem c8_idempotent (st : StoreState) (e : PodEvent)
    (hwf : ∀ pod, e.obj = some pod → podNamesNodup pod) :
    (handlePodWatcherStep (handlePodWatcherStep st e).state e).state =
      (handlePodWatcherStep st e).state := by
  cases hpod : getPodFromEventIfRunning e with
  | none =>
    rw [handleStep_filtered st e hpod]
    show (handlePodWatcherStep st e).state = st
    rw [handleStep_filtered st e hpod]
  | some pod =>
    have hnd : podNamesNodup pod := hwf pod (getPod_obj e pod hpod)
    cases hpar : e.parent with
    | none =>
      rw [handleStep_noparent st e pod hpod hpar]
      show (handlePodWatcherStep st e).state = st
      rw [handleStep_noparent st e pod hpod hpar]
    | some wlid =>
      rw [handleStep_unfold st e pod wlid hpod hpar]
      by_cases hne : getNewContainerToImageIDsFromPod st.iwMap pod = []
      · rw [if_neg (by simpa using hne)]
        by_cases hmap : isWlidInMap st wlid = true
        · rw [if_pos hmap]
          show (handlePodWatcherStep st e).state = st
          rw [handleStep_unfold st e pod wlid hpod hpar]
          rw [if_neg (by simpa using hne), if_pos hmap]
        · rw [if_neg hmap]
          by_cases hcs : ExtractContainersToImageIDsFromPod pod = []
          · rw [hcs]
            cases hids : e.instIDs with
            | none =>
              show (handlePodWatcherStep (registerWcPairs st wlid []) e).state =
                registerWcPairs st wlid []
              show (handlePodWatcherStep st e).state = st
              rw [handleStep_unfold st e pod wlid hpod hpar]
              rw [if_neg (by simpa using hne), if_neg hmap, hcs, hids]
              rfl
            | some ids =>
              show (handlePodWatcherStep (addInstanceIDs (registerWcPairs st wlid []) ids)
                  e).state = addInstanceIDs (registerWcPairs st wlid []) ids
              show (handlePodWatcherStep (addInstanceIDs st ids) e).state =
                addInstanceIDs st ids
              rw [handleStep_unfold (addInstanceIDs st ids) e pod wlid hpod hpar]
              have hiw : (addInstanceIDs st ids).iwMap = st.iwMap := addInstanceIDs_iw st ids
              have hne' : getNewContainerToImageIDsFromPod (addInstanceIDs st ids).iwMap pod
                  = [] := by rw [hiw]; exact hne
              have hmap' : isWlidInMap (addInstanceIDs st ids) wlid = false := by
                rw [isWlidInMap_eq, addInstanceIDs_wc]
                rw [isWlidInMap_eq] at hmap
                simpa using hmap
              rw [if_neg (by simpa using hne'), if_neg (by simp [hmap']), hcs, hids]
              show (addInstanceIDs (addInstanceIDs st ids) ids) = addInstanceIDs st ids
              exact addInstanceIDs_idem st ids
          · cases hids : e.instIDs with
            | none =>
              show (handlePodWatcherStep
                  (registerWcPairs st wlid (ExtractContainersToImageIDsFromPod pod)) e).state =
                registerWcPairs st wlid (ExtractContainersToImageIDsFromPod pod)
              refine second_run_fixed _ e pod wlid hpod hpar ?_ ?_
              · rw [regWc_iw]; exact hne
              · rw [isWlidInMap_eq, regWc_wc]
                exact wcFold_key_isSome_set wlid _ _ hcs
            | some ids =>
              show (handlePodWatcherStep
                  (addInstanceIDs
                    (registerWcPairs st wlid (ExtractContainersToImageIDsFromPod pod)) ids)
                  e).state =
                addInstanceIDs
                  (registerWcPairs st wlid (ExtractContainersToImageIDsFromPod pod)) ids
              refine second_run_fixed _ e pod wlid hpod hpar ?_ ?_
              · rw [addInstanceIDs_iw, regWc_iw]; exact hne
              · rw [isWlidInMap_eq, addInstanceIDs_wc, regWc_wc]
                exact wcFold_key_isSome_set wlid _ _ hcs
      · rw [if_pos hne]
        cases hids : e.instIDs with
        | none =>
          show (handlePodWatcherStep
              (registerNewPairs st wlid (getNewContainerToImageIDsFromPod st.iwMap pod))
              e).state =
            registerNewPairs st wlid (getNewContainerToImageIDsFromPod st.iwMap pod)
          refine second_run_fixed _ e pod wlid hpod hpar ?_ ?_
          · rw [regNew_iw]
            exact c8_branchA_iw st pod wlid hnd
          · rw [isWlidInMap_eq, regNew_wc]
            exact wcFold_key_isSome_set wlid _ _ hne
        | some ids =>
          show (handlePodWatcherStep
              (addInstanceIDs
                (registerNewPairs st wlid (getNewContainerToImageIDsFromPod st.iwMap pod))
                ids) e).state =
            addInstanceIDs
              (registerNewPairs st wlid (getNewContainerToImageIDsFromPod st.iwMap pod)) ids
          refine second_run_fixed _ e pod wlid hpod hpar ?_ ?_
          · rw [addInstanceIDs_iw, regNew_iw]
            exact c8_branchA_iw st pod wlid hnd
          · rw [isWlidInMap_eq, addInstanceIDs_wc, regNew_wc]
            exact wcFold_key_isSome_set wlid _ _ hne

/-- Pod and event for the C8 witness. -/
def c8pod : Pod := ⟨"P8", "N", "Running", [⟨"app", "i8", true⟩]⟩

/-- Event for the C8 witness. -/
def c8event : PodEvent := ⟨EventType.modified, some c8pod, true, some "w8", some ["iid8"]⟩

theorem c8_witness :
    (∀ pod, c8event.obj = some pod → podNamesNodup pod) ∧
    (handlePodWatcherStep (handlePodWatcherStep emptyStore c8event).state c8event).state =
      (handlePodWatcherStep emptyStore c8event).state := by
  have hwf : ∀ pod, c8event.obj = some pod → podNamesNodup pod := by
    intro pod h
    have h' : some c8pod = some pod := h
    injection h' with hh
    rw [← hh]
    show (c8pod.containerStatuses.map (·.name)).Nodup
    decide
  exact ⟨hwf, c8_idempotent emptyStore c8event hwf⟩

/-! ## C7: reconnect liveness -/

/-- C7 counterexample: after a server-closed stream the Pods loop attempts
the relisting and immediately resubscribes with NO backoff sleep, and when
the relisting fails the stored resource version is not refreshed (the
resubscribe uses the stale version rv1).  Both contradict the claim that a
server-closed stream is retried after the fixed 3-second backoff with the
stored resource version refreshed before every resubscribe. -/
theorem c7_counterexample :
    (PodWatchRun (PWState.handling "rv1")
        [PWInput.streamClosed (some "rv2"), PWInput.subscribeOk]).2 =
      [PWAction.listPodsAttempt, PWAction.subscribeAttempt "rv2"] ∧
    PWAction.sleepRetryInterval ∉
      (PodWatchRun (PWState.handling "rv1")
        [PWInput.streamClosed (some "rv2"), PWInput.subscribeOk]).2 ∧
    (PodWatchRun (PWState.handling "rv1")
        [PWInput.streamClosed none, PWInput.subscribeOk]).2 =
      [PWAction.listPodsAttempt, PWAction.subscribeAttempt "rv1"] := by
  refine ⟨rfl, by decide, rfl⟩

/-- C7 (amended): no watch loop ever terminates.  A failed subscription
attempt re-arms the loop after the fixed backoff with no retry ceiling, in
the Pods loop and in the generic loop alike.  A server-closed stream in the
generic loop (SBOM, Filtered SBOM, Vulnerability Manifest) backs off for
the retry interval before resubscribing; in the Pods loop it triggers a pod
relisting before the immediate resubscribe (no backoff sleep), refreshing
the stored resource version only when that relisting succeeds and keeping
the stale version otherwise. -/
theorem c7_reconnect_liveness :
    (∀ s i, s ≠ PWState.terminated → (PodWatchStep s i).1 ≠ PWState.terminated) ∧
    (∀ rv, PodWatchStep (PWState.awaitSubscribe rv) PWInput.subscribeErr =
      (PWState.awaitSubscribe rv,
        [PWAction.subscribeAttempt rv, PWAction.sleepRetryInterval])) ∧
    (∀ rv n, (PodWatchRun (PWState.awaitSubscribe rv)
        (List.replicate n PWInput.subscribeErr)).1 = PWState.awaitSubscribe rv) ∧
    (∀ rv rv2, PodWatchStep (PWState.handling rv) (PWInput.streamClosed (some rv2)) =
      (PWState.awaitSubscribe rv2, [PWAction.listPodsAttempt])) ∧
    (∀ rv, PodWatchStep (PWState.handling rv) (PWInput.streamClosed none) =
      (PWState.awaitSubscribe rv, [PWAction.listPodsAttempt])) ∧
    (∀ s i, s ≠ RWState.terminated → (ReconnectStep s i).1 ≠ RWState.terminated) ∧
    (ReconnectStep RWState.disconnected RWInput.subscribeErr =
      (RWState.disconnected, [RWAction.subscribeAttempt, RWAction.sleepRetryInterval])) ∧
    (ReconnectStep RWState.connected RWInput.streamClosed =
      (RWState.disconnected, [RWAction.sleepRetryInterval])) := by
  refine ⟨?_, fun rv => rfl, ?_, fun rv rv2 => rfl, fun rv => rfl, ?_, rfl, rfl⟩
  · intro s i hs
    cases s with
    | awaitSubscribe rv => cases i <;> simp [PodWatchStep]
    | handling rv =>
      cases i with
      | streamClosed r => cases r <;> simp [PodWatchStep]
      | subscribeOk => simp [PodWatchStep]
      | subscribeErr => simp [PodWatchStep]
      | podEvent => simp [PodWatchStep]
    | terminated => exact absurd rfl hs
  · intro rv n
    induction n with
    | zero => rfl
    | succ k ih =>
      rw [List.replicate_succ]
      show (PodWatchRun (PWState.awaitSubscribe rv)
        (List.replicate k PWInput.subscribeErr)).1 = PWState.awaitSubscribe rv
      exact ih
  · intro s i hs
    cases s with
    | disconnected => cases i <;> simp [ReconnectStep]
    | connected => cases i <;> simp [ReconnectStep]
    | terminated => exact absurd rfl hs

theorem c7_witness :
    (PWState.handling "rv0" ≠ PWState.terminated) ∧
    (PodWatchStep (PWState.handling "rv0") PWInput.podEvent).1 ≠ PWState.terminated ∧
    (PodWatchRun (PWState.awaitSubscribe "rv0")
      (List.replicate 3 PWInput.subscribeErr)).1 = PWState.awaitSubscribe "rv0" ∧
    (RWState.connected ≠ RWState.terminated) ∧
    (ReconnectStep RWState.connected RWInput.event).1 ≠ RWState.terminated := by
  have h := c7_reconnect_liveness
  exact ⟨by decide, h.1 (PWState.handling "rv0") PWInput.podEvent (by decide),
    h.2.2.1 "rv0" 3, by decide,
    h.2.2.2.2.2.1 RWState.connected RWInput.event (by decide)⟩

/-! ## C9: the locking discipline -/

/-- C9: the access table of watcher.go contains exactly one unguarded
access, the raw read of hashedInstanceIDs in HandleSBOMFilteredEvents at
line 236 (no instanceIDsMutex is taken there, unlike the listInstanceIDs
accessor used by the vulnerability-manifest handler); every other access to
the three correlation structures goes through the owning mutex.  The claim
that every access is guarded is therefore false on the code. -/
theorem c9_unguarded_access :
    (⟨"HandleSBOMFilteredEvents", 236, CorrelationStructure.instanceIDSet, false⟩ : AccessSite)
      ∈ watcherAccessSites ∧
    ¬ (∀ s ∈ watcherAccessSites, s.guarded = true) ∧
    (∀ s ∈ watcherAccessSites,
      (s.fn ≠ "HandleSBOMFilteredEvents" ∨ s.target ≠ CorrelationStructure.instanceIDSet) →
      s.guarded = true) := by
  refine ⟨by decide, by decide, by decide⟩

theorem c9_witness :
    (⟨"listInstanceIDs", 107, CorrelationStructure.instanceIDSet, true⟩ : AccessSite) ∈
      watcherAccessSites ∧
    (⟨"listInstanceIDs", 107, CorrelationStructure.instanceIDSet, true⟩ : AccessSite).guarded
      = true := by
  have h := c9_unguarded_access
  exact ⟨by decide,
    h.2.2 ⟨"listInstanceIDs", 107, CorrelationStructure.instanceIDSet, true⟩ (by decide)
      (by decide)⟩

end Operator
